import Mathlib

/-!
# Verification of the Olympic host-city data pipeline

Shallow embedding, in Lean 4, of the text-cleaning, row-classification,
deduplication and geocode-reconciliation code of the repository
(`scripts/clean_normalized_csv.py`, `scripts/clean_hosts_full.py`,
`scripts/scrape_olympic_host_cities_normalize.py`, `scripts/geocode_hosts.py`,
`scripts/augment_geocodes.py`, `scripts/build_geocoded_db.py`,
`scripts/json_geocoded_to_sqlite.py`), together with proofs and refutations of
the specified properties.

Strings are modelled as `List Char` (`Str`); Python dicts as insertion-ordered
association lists with unique keys; SQL rows as structures with `Option`
fields (`none` = NULL).
-/

set_option maxHeartbeats 1000000

abbrev Str := List Char

/-- Python `\s` / `str.strip()` whitespace on the ASCII range:
space, tab, newline, vertical tab, form feed, carriage return. -/
def isWsC (c : Char) : Bool :=
  c = ' ' || c = '\t' || c = '\n' || c = '\x0b' || c = '\x0c' || c = '\r'

/-- Python `str.isdigit` on the ASCII range: decimal digit characters. -/
def isDigitC (c : Char) : Bool := '0' ≤ c && c ≤ '9'

/-- Python word character (`\w` on ASCII): letter, digit or underscore. -/
def isWordC (c : Char) : Bool :=
  isDigitC c || ('a' ≤ c && c ≤ 'z') || ('A' ≤ c && c ≤ 'Z') || c = '_'

/-- `str.isdigit()`: non-empty and all digits. -/
def isDigitStr (s : Str) : Bool := s ≠ [] && s.all isDigitC

/-- Strip characters satisfying `p` from the left end (`str.lstrip`). -/
def stripLeft (p : Char → Bool) (s : Str) : Str := s.dropWhile p

/-- Strip characters satisfying `p` from the right end (`str.rstrip`). -/
def stripRight (p : Char → Bool) (s : Str) : Str :=
  (s.reverse.dropWhile p).reverse

/-- Python `str.strip(chars)`: strip characters satisfying `p` from both ends. -/
def stripBoth (p : Char → Bool) (s : Str) : Str := stripRight p (stripLeft p s)

/-- `str.strip()` with no argument: strip whitespace from both ends. -/
def stripWs (s : Str) : Str := stripBoth isWsC s

/-- Membership in the literal set `" ,;:\n\t\r"` used by
`clean_normalized_csv.clean_text`'s final `strip`. -/
def isPunctC (c : Char) : Bool :=
  c = ' ' || c = ',' || c = ';' || c = ':' || c = '\n' || c = '\t' || c = '\r'

/-!
## `clean_normalized_csv.clean_text`

`re.sub(r"\[\s*[^\]]+\s*\]", "", s)` removes every occurrence of a `[`,
followed by at least one non-`]` character, followed by `]`; scanning is
left-to-right and non-overlapping, each match always ending at the first `]`
after its `[`.  We embed the scan as a one-pass accumulator automaton:
`buf = some acc` means a `[` has been read and `acc` holds the (reversed)
candidate content read so far.
-/

/-- The `re.sub(r"\[\s*[^\]]+\s*\]", "", s)` scan of
`clean_normalized_csv.clean_text` (non-empty bracket content required). -/
def debracketP (buf : Option Str) (cs : Str) : Str :=
  match cs with
  | [] =>
    match buf with
    | none => []
    | some acc => '[' :: acc.reverse
  | c :: rest =>
    match buf with
    | none =>
      if c = '[' then debracketP (some []) rest
      else c :: debracketP none rest
    | some acc =>
      if c = ']' then
        if acc = [] then '[' :: ']' :: debracketP none rest
        else debracketP none rest
      else debracketP (some (c :: acc)) rest

/-- Removal of bracketed citations, `clean_normalized_csv` variant
(`[^\]]+`: empty brackets `[]` are left in place). -/
def debracket (cs : Str) : Str := debracketP none cs

/-- `s.replace("†", "")`. -/
def dedagger (cs : Str) : Str := cs.filter (fun c => c ≠ '†')

/-- `re.sub(r"\s+", " ", s)`: collapse every maximal whitespace run to a
single space.  `prevWs` records whether the previous character was part of a
whitespace run already emitted as `' '`. -/
def collapseWsP (prevWs : Bool) (cs : Str) : Str :=
  match cs with
  | [] => []
  | c :: rest =>
    if isWsC c then
      if prevWs then collapseWsP true rest
      else ' ' :: collapseWsP true rest
    else c :: collapseWsP false rest

/-- `re.sub(r"\s+", " ", s)`. -/
def collapseWs (cs : Str) : Str := collapseWsP false cs

/-- `clean_normalized_csv.clean_text`: remove bracketed citations, remove
`†`, collapse whitespace runs, `strip()`, then `strip(" ,;:\n\t\r")`. -/
def clean_text (s : Str) : Str :=
  stripBoth isPunctC (stripWs (collapseWs (dedagger (debracket s))))

/-!
## `clean_hosts_full.clean_text`

Its `FOOTNOTE_PATTERN = re.compile(r"\[[^\]]*\]||||||†|§")` contains
empty alternatives, so at every position where the bracket branch fails the
pattern makes an empty match (replaced by the empty string, a no-op) and the
`†|§` branches are never reached: the substitution removes exactly
the `\[[^\]]*\]` matches (here empty content `[]` is allowed).  The dagger and
section sign are removed afterwards by the `TRIM_MARKERS` replace loop, and
the result is `strip()`-ped and then `strip(',')`-ped.
-/

/-- The `\[[^\]]*\]` scan of `clean_hosts_full.FOOTNOTE_PATTERN`
(empty bracket content allowed: `[]` is removed). -/
def debracketSP (buf : Option Str) (cs : Str) : Str :=
  match cs with
  | [] =>
    match buf with
    | none => []
    | some acc => '[' :: acc.reverse
  | c :: rest =>
    match buf with
    | none =>
      if c = '[' then debracketSP (some []) rest
      else c :: debracketSP none rest
    | some _ =>
      if c = ']' then debracketSP none rest
      else
        match buf with
        | some acc => debracketSP (some (c :: acc)) rest
        | none => c :: debracketSP none rest

/-- Removal of bracketed text, `clean_hosts_full` variant. -/
def debracketS (cs : Str) : Str := debracketSP none cs

/-- The `for m in TRIM_MARKERS: s = s.replace(m, "")` loop (`†`, `§`). -/
def detrim (cs : Str) : Str := cs.filter (fun c => c ≠ '†' && c ≠ '§')

/-- `clean_hosts_full.clean_text` (the `if not s: return ""` guard is the
identity on our representation): bracket removal, `†`/`§` removal,
`strip()`, `strip(',')`. -/
def clean_text_full (s : Str) : Str :=
  stripBoth (fun c => c = ',') (stripWs (detrim (debracketS s)))

/-!
## Year and summary-row regular patterns

`YEAR_RE = re.compile(r"\b(18|19|20)\d{2}\b")` — word boundaries on both
sides.  `re.search` scans left to right; we model the scan with the previous
character carried along for the left boundary.
-/

/-- Numeric value of four digit characters. -/
def yearNum (c1 c2 c3 c4 : Char) : Nat :=
  (c1.toNat - 48) * 1000 + (c2.toNat - 48) * 100 + (c3.toNat - 48) * 10 + (c4.toNat - 48)

/-- `int(s)` on an all-digit string. -/
def natOfDigits (s : Str) : Nat := s.foldl (fun n c => n * 10 + (c.toNat - 48)) 0

/-- Match of `(18|19|20)\d{2}\b` at the head of the list (the left boundary
is checked by the caller). -/
def matchYearAt : Str → Option Nat
  | c1 :: c2 :: c3 :: c4 :: rest =>
    if ((c1 = '1' && (c2 = '8' || c2 = '9')) || (c1 = '2' && c2 = '0'))
        && isDigitC c3 && isDigitC c4 && rest.head?.all (fun d => !isWordC d)
    then some (yearNum c1 c2 c3 c4) else none
  | _ => none

/-- `YEAR_RE.search`: first position (left to right) with a word boundary
before it where `(18|19|20)\d{2}\b` matches. -/
def searchYearP (prev : Option Char) : Str → Option Nat
  | [] => none
  | c :: rest =>
    match (if prev.all (fun p => !isWordC p) then matchYearAt (c :: rest) else none) with
    | some y => some y
    | none => searchYearP (some c) rest

/-- `YEAR_RE.search(s)` returning the matched year as a number. -/
def searchYear (cs : Str) : Option Nat := searchYearP none cs

/-- Four consecutive digit characters occur somewhere in the list. -/
def run4 : Str → Bool
  | c1 :: rest =>
    (match rest with
     | c2 :: c3 :: c4 :: _ => isDigitC c1 && isDigitC c2 && isDigitC c3 && isDigitC c4
     | _ => false) || run4 rest
  | [] => false

/-- Match of `\(\s*\d{4}[^)]*\d{4}[^)]*\)` at the head of the list: a `(`,
optional whitespace, four digits, then (before the first following `)`,
which must exist) another run of four digits. -/
def matchR1At : Str → Bool
  | '(' :: rest =>
    (match rest.dropWhile isWsC with
     | c1 :: c2 :: c3 :: c4 :: r2 =>
       isDigitC c1 && isDigitC c2 && isDigitC c3 && isDigitC c4 &&
       r2.contains ')' && run4 (r2.takeWhile (fun c => c != ')'))
     | _ => false)
  | _ => false

/-- `re.search` for a pattern with no left-boundary requirement: try every
position. -/
def searchAll (matchAt : Str → Bool) : Str → Bool
  | [] => false
  | c :: rest => matchAt (c :: rest) || searchAll matchAt rest

/-- `re.search(r"\(\s*\d{4}[^)]*\d{4}[^)]*\)", s)` of
`scrape_olympic_host_cities_normalize.is_summary_row`. -/
def searchR1 (cs : Str) : Bool := searchAll matchR1At cs

/-- Match of `\d\s*\(\d{4}.*\)` at the head (the `\b` is checked by the
caller): one digit, optional whitespace, `(`, four digits, then a `)` with
no newline in between (`.` does not match a newline). -/
def matchR2At : Str → Bool
  | d :: rest =>
    isDigitC d &&
    (match rest.dropWhile isWsC with
     | '(' :: r2 =>
       (match r2 with
        | c1 :: c2 :: c3 :: c4 :: r3 =>
          isDigitC c1 && isDigitC c2 && isDigitC c3 && isDigitC c4 &&
          (r3.takeWhile (fun c => c != '\n')).contains ')'
        | _ => false)
     | _ => false)
  | [] => false

/-- `re.search` for a pattern anchored by a word boundary `\b` on the left:
try every position whose previous character is absent or a non-word
character. -/
def searchB (matchAt : Str → Bool) (prev : Option Char) : Str → Bool
  | [] => false
  | c :: rest =>
    (prev.all (fun p => !isWordC p) && matchAt (c :: rest)) || searchB matchAt (some c) rest

/-- `re.search(r"\b\d\s*\(\d{4}.*\)", s)`. -/
def searchR2 (cs : Str) : Bool := searchB matchR2At none cs

/-- A run of four digits followed, strictly later, by a `)`
(for `\d{4}.*\)` inside a newline-free segment). -/
def run4Close : Str → Bool
  | c1 :: rest =>
    (match rest with
     | c2 :: c3 :: c4 :: tail =>
       isDigitC c1 && isDigitC c2 && isDigitC c3 && isDigitC c4 && tail.contains ')'
     | _ => false) || run4Close rest
  | [] => false

/-- Match of `\d+\s*\(\d{4}.*\d{4}.*\)` at the head (`\b` checked by the
caller): digits, optional whitespace, `(`, four digits, then — within the
newline-free segment — another four-digit run followed by `)`. -/
def matchMYAt : Str → Bool
  | d :: rest =>
    isDigitC d &&
    (match (rest.dropWhile isDigitC).dropWhile isWsC with
     | '(' :: r2 =>
       (match r2 with
        | c1 :: c2 :: c3 :: c4 :: r3 =>
          isDigitC c1 && isDigitC c2 && isDigitC c3 && isDigitC c4 &&
          run4Close (r3.takeWhile (fun c => c != '\n'))
        | _ => false)
     | _ => false)
  | [] => false

/-- `MULTI_YEAR_SUMMARY.search` of `clean_hosts_full`
(`re.compile(r"\b\d+\s*\(\d{4}.*\d{4}.*\)")`). -/
def searchMY (cs : Str) : Bool := searchB matchMYAt none cs

/-!
## Season lookup tables and the two row-cleaning pipelines
-/

/-- `SUMMER_YEARS` (identical in both scripts). -/
def SUMMER_YEARS : List Nat :=
  [1896, 1900, 1904, 1908, 1912, 1920, 1924, 1928, 1932, 1936,
   1948, 1952, 1956, 1960, 1964, 1968, 1972, 1976, 1980, 1984,
   1988, 1992, 1996, 2000, 2004, 2008, 2012, 2016, 2020, 2024]

/-- `WINTER_YEARS` (identical in both scripts). -/
def WINTER_YEARS : List Nat :=
  [1924, 1928, 1932, 1936, 1948, 1952, 1956, 1960, 1964, 1968,
   1972, 1976, 1980, 1984, 1988, 1992, 1994, 1998, 2002, 2006,
   2010, 2014, 2018, 2022]

/-- `CANCELLED_YEARS = {1916, 1940, 1944}`. -/
def CANCELLED_YEARS : List Nat := [1916, 1940, 1944]

/-- `FUTURE_CUTOFF = 2024`. -/
def FUTURE_CUTOFF : Nat := 2024

/-- `scrape_olympic_host_cities_normalize.determine_season_by_year`. -/
def determine_season_by_year (year : Nat) : Option Str :=
  if WINTER_YEARS.contains year then some "Winter".data
  else if SUMMER_YEARS.contains year then some "Summer".data
  else none

/-- `clean_hosts_full.determine_season` (same logic). -/
def determine_season (year : Nat) : Option Str :=
  if WINTER_YEARS.contains year then some "Winter".data
  else if SUMMER_YEARS.contains year then some "Summer".data
  else none

/-- A normalized row (`Year, City, Country, Season, Notes, Source_table,
Raw` — the dict produced by `extract_row_normalized`). -/
structure RowN where
  Year : Str
  City : Str
  Country : Str
  Season : Str
  Notes : Str
  Source_table : Str
  Raw : Str
deriving DecidableEq

/-- `scrape_olympic_host_cities_normalize.is_summary_row`. -/
def is_summary_row (r : RowN) : Bool :=
  if !isDigitStr r.Year then searchR1 r.Raw || searchR2 r.Raw else false

/-- A cleaned record of `clean_rows` (`Year` kept numeric; the script
stringifies it only on output). -/
structure RecN where
  year : Nat
  City : Str
  Country : Str
  Season : Str
  Notes : Str
  Source_table : Str
  Raw : Str
deriving DecidableEq

/-- Per-row body of the `clean_rows` loop (everything before the `seen`
check, which is modelled separately by `dedupFirst`): summary filter, strip,
merged-city fix, year resolution, cancelled note, future cutoff, season
resolution. -/
def processRowN (r : RowN) : Option RecN :=
  if is_summary_row r then none
  else
    let city0 := stripWs r.City
    let country0 := stripWs r.Country
    let city := if city0 == "MelbourneStockholm".data then "Melbourne / Stockholm".data else city0
    let country :=
      if city0 == "MelbourneStockholm".data
          && (country0 == "AustraliaSweden".data || country0 == "OceaniaEurope".data || country0 == [])
      then "Australia / Sweden".data else country0
    match (if isDigitStr r.Year then some (natOfDigits r.Year) else searchYear r.Raw) with
    | none => none
    | some year =>
      let notes0 := stripWs r.Notes
      let notes := if CANCELLED_YEARS.contains year then "Cancelled due to war".data else notes0
      if year > FUTURE_CUTOFF then none
      else
        let season := (determine_season_by_year year).getD r.Season
        if season == "Other".data then none
        else some ⟨year, city, country, season, notes, r.Source_table, r.Raw⟩

/-- First-seen-wins deduplication by key, as performed by the `seen` set in
both cleaning loops. -/
def dedupFirst {α κ : Type} [BEq κ] (key : α → κ) : List α → List κ → List α
  | [], _ => []
  | x :: xs, seen =>
    if seen.contains (key x) then dedupFirst key xs seen
    else x :: dedupFirst key xs (key x :: seen)

/-- Stable insertion: insert `x` after every element strictly smaller,
before the first element not smaller (the unique stable ascending order,
as computed by Python `list.sort(key=...)`). -/
def sIns {α : Type} (lt : α → α → Bool) (x : α) : List α → List α
  | [] => [x]
  | y :: ys => if lt y x then y :: sIns lt x ys else x :: y :: ys

/-- Stable sort (insertion sort — extensionally equal to Python's stable
`list.sort`). -/
def sSort {α : Type} (lt : α → α → Bool) : List α → List α
  | [] => []
  | x :: xs => sIns lt x (sSort lt xs)

/-- `order = {"Summer": 0, "Winter": 1}` with `order.get(season, 2)`. -/
def seasonOrd (s : Str) : Nat :=
  if s == "Summer".data then 0 else if s == "Winter".data then 1 else 2

/-- Strict lexicographic order on `(year, season order)` sort keys. -/
def keyLt (a b : Nat × Nat) : Bool := a.1 < b.1 || (a.1 == b.1 && a.2 < b.2)

/-- Sort key of `clean_rows`: `(int(x["Year"]), order.get(x["Season"], 2))`. -/
def sortKeyN (r : RecN) : Nat × Nat := (r.year, seasonOrd r.Season)

/-- Comparison used by `cleaned.sort` in `clean_rows`. -/
def ltN (a b : RecN) : Bool := keyLt (sortKeyN a) (sortKeyN b)

/-- Identity key `(year, season, city)` of a `clean_rows` record. -/
def keyN (r : RecN) : Nat × Str × Str := (r.year, r.Season, r.City)

/-- `scrape_olympic_host_cities_normalize.clean_rows`: per-row filter and
normalisation, first-seen-wins dedup on `(year, season, city)`, then the
stable sort by `(year, Summer-before-Winter)`. -/
def clean_rows (rows : List RowN) : List RecN :=
  sSort ltN (dedupFirst keyN (rows.filterMap processRowN) [])

/-- `clean_hosts_full.CODE_YEAR_MAP`. -/
def CODE_YEAR_MAP : List (Str × Nat) :=
  [("008".data, 1924), ("009".data, 1928), ("010".data, 1932), ("011".data, 1936),
   ("014".data, 1948), ("015".data, 1952), ("025".data, 1992)]

/-- `clean_hosts_full.is_summary_row(year_val, season, city, notes)`
(the `city` argument is unused by the source logic too). -/
def is_summary_row_full (year_val season _city notes : Str) : Bool :=
  (!isDigitStr year_val && (season == "Summer".data || season == "Winter".data)
      && searchMY notes)
  || (year_val != [] && !isDigitStr year_val
      && (season == "Summer".data || season == "Winter".data) && notes == [])

/-- `clean_hosts_full.split_merged_city` (the `CAPITAL_RUN` branch is a
no-op in the source: its body is `pass`). -/
def split_merged_city (city : Str) : Str :=
  if city == "MelbourneStockholm".data then "Melbourne / Stockholm".data else city

/-- `clean_hosts_full.infer_year(row_year, notes, country)`: direct numeric
year, else `re.match(r"^(\d{4})(?:$|[^0-9])", notes.strip())`, else the
`^S\d{3}` games-code prefix of `country` looked up in `CODE_YEAR_MAP`. -/
def infer_year (row_year notes country : Str) : Option Nat :=
  if isDigitStr row_year then some (natOfDigits row_year)
  else
    match (match stripWs notes with
      | c1 :: c2 :: c3 :: c4 :: rest =>
        if isDigitC c1 && isDigitC c2 && isDigitC c3 && isDigitC c4
            && rest.head?.all (fun d => !isDigitC d)
        then some (yearNum c1 c2 c3 c4) else none
      | _ => none) with
    | some y => some y
    | none =>
      match country with
      | 'S' :: a :: b :: c :: _ =>
        if isDigitC a && isDigitC b && isDigitC c then
          (CODE_YEAR_MAP.find? (fun kv => kv.1 == [a, b, c])).map (fun kv => kv.2)
        else none
      | _ => none

/-- A kept record of `clean_hosts_full.main`. -/
structure RecH where
  year : Nat
  season : Str
  city : Str
  country : Str
  notes : Str
deriving DecidableEq

/-- Per-row body of the `clean_hosts_full.main` loop (before the `seen`
check): length guard, summary filter, cleaning, merged-city normalisation,
year inference, cancelled/future filter, season lookup. -/
def processRowH (raw : List Str) : Option RecH :=
  match raw with
  | year_val :: season_raw :: city_raw :: country_raw :: notes_raw :: _ =>
    if is_summary_row_full year_val season_raw city_raw notes_raw then none
    else
      let city1 := clean_text_full city_raw
      let country1 := clean_text_full country_raw
      let notes := clean_text_full notes_raw
      let city := split_merged_city city1
      let country := if city == "Melbourne / Stockholm".data
        then "Australia / Sweden".data else country1
      match infer_year (stripWs year_val) notes (stripWs country_raw) with
      | none => none
      | some year =>
        if CANCELLED_YEARS.contains year || year > FUTURE_CUTOFF then none
        else
          match determine_season year with
          | none => none
          | some season => some ⟨year, season, city, country, notes⟩
  | _ => none

/-- Identity key `(year, season, city)` of a `clean_hosts_full` record. -/
def keyH (r : RecH) : Nat × Str × Str := (r.year, r.season, r.city)

/-- Sort key of `clean_hosts_full.main`: `(r["year"], order[r["season"]])`
(every kept record has season Summer or Winter, so the total `seasonOrd`
agrees with the source's direct dict access). -/
def sortKeyH (r : RecH) : Nat × Nat := (r.year, seasonOrd r.season)

/-- Comparison used by `kept.sort` in `clean_hosts_full.main`. -/
def ltH (a b : RecH) : Bool := keyLt (sortKeyH a) (sortKeyH b)

/-- `clean_hosts_full.main`'s record pipeline: per-row processing,
first-seen-wins dedup on `(year, season, city)`, stable sort. -/
def hosts_main (rows : List (List Str)) : List RecH :=
  sSort ltH (dedupFirst keyH (rows.filterMap processRowH) [])

/-!
## Python dicts as insertion-ordered association lists

`dGet` is `d.get(k)` / `k in d`; `dSet` is `d[k] = v` (overwrite keeps the
original position, new keys are appended); `dSetdefault` is
`d.setdefault(k, v)`.
-/

/-- `d.get(k)`. -/
def dGet {ν : Type} (d : List (Str × ν)) (k : Str) : Option ν :=
  (d.find? (fun kv => kv.1 == k)).map (fun kv => kv.2)

/-- `d[k] = v`. -/
def dSet {ν : Type} (d : List (Str × ν)) (k : Str) (v : ν) : List (Str × ν) :=
  if (d.find? (fun kv => kv.1 == k)).isSome
  then d.map (fun kv => if kv.1 == k then (k, v) else kv)
  else d ++ [(k, v)]

/-- `d.setdefault(k, v)`. -/
def dSetdefault {ν : Type} (d : List (Str × ν)) (k : Str) (v : ν) : List (Str × ν) :=
  if (dGet d k).isSome then d else d ++ [(k, v)]

/-- Composite cache key `"{year}|{city}|{country}"`. -/
def mkKey (year city country : Str) : Str := year ++ '|' :: city ++ '|' :: country

/-!
## `geocode_hosts.py` — the geocoding pass (C10)

The external geocoder (`geopy` + `RateLimiter`) is a parameter
`g : Str → GeoReply`; `GeoReply.err` models a raised exception.  The state
carries the JSON cache, the accumulated `rows` list and the log of queries
actually issued to the geocoder.
-/

/-- Result of one external geocoder call (`geocode(query)`):
a location, `None`, or a raised exception. -/
inductive GeoReply : Type
  | found (lat lon : ℚ) (raw : Option Str)
  | notFound
  | err (msg : Str)

/-- A `geocoded_hosts.json` cache entry as built by `geocode_rows`. -/
structure GEntry where
  key : Str
  year : Str
  city : Str
  country : Str
  query : Str
  lat : Option ℚ
  lon : Option ℚ
  provider : Str
  status : Str
  timestamp : Str
  raw : Option Str
  error : Option Str
deriving DecidableEq

/-- An input CSV row as seen by `geocode_rows` (only the fields it reads). -/
structure GRow where
  Year : Str
  City : Str
  Country : Str
deriving DecidableEq

/-- `geocode_hosts.make_key`. -/
def make_key (r : GRow) : Str := mkKey (stripWs r.Year) (stripWs r.City) (stripWs r.Country)

/-- `", ".join([p for p in (City, Country) if p])`. -/
def mk_query (city country : Str) : Str :=
  if city = [] then country
  else if country = [] then city
  else city ++ ", ".data ++ country

/-- State of the `geocode_rows` loop. -/
structure GeoState where
  cache : List (Str × GEntry)
  out : List GEntry
  calls : List Str
deriving DecidableEq

/-- One iteration of the `geocode_rows` loop: cache hit → reuse; empty
query → `no_query` entry without calling the geocoder; otherwise call the
geocoder and record `ok` / `not_found` / `error`. -/
def geo_step (g : Str → GeoReply) (now : Str) (st : GeoState) (r : GRow) : GeoState :=
  let key := make_key r
  match dGet st.cache key with
  | some e => { st with out := st.out ++ [e] }
  | none =>
    let query := mk_query r.City r.Country
    let base : GEntry :=
      { key := key, year := r.Year, city := r.City, country := r.Country, query := query,
        lat := none, lon := none, provider := "nominatim".data, status := "not_found".data,
        timestamp := now, raw := none, error := none }
    if query = [] then
      let e := { base with status := "no_query".data }
      { cache := dSet st.cache key e, out := st.out ++ [e], calls := st.calls }
    else
      let e := match g query with
        | .found la lo raw => { base with lat := some la, lon := some lo, status := "ok".data, raw := raw }
        | .notFound => base
        | .err m => { base with status := "error".data, error := some m }
      { cache := dSet st.cache key e, out := st.out ++ [e], calls := st.calls ++ [query] }

/-- `geocode_hosts.geocode_rows` over the input rows. -/
def geocode_rows (g : Str → GeoReply) (now : Str) (rows : List GRow) (st : GeoState) : GeoState :=
  rows.foldl (geo_step g now) st

/-!
## `augment_geocodes.py` and `build_geocoded_db.py` — cache lookup (C5, C9)
-/

/-- A `geocoded_hosts.json` entry as read back by the merge scripts
(fields may be missing: `Option`). -/
structure CacheEntry where
  year : Option Str
  city : Option Str
  country : Option Str
  lat : Option ℚ
  lon : Option ℚ
  provider : Option Str
  geocode_provider : Option Str
  status : Option Str
  timestamp : Option Str
  ts : Option Str
  raw : Option (List (Str × Str))
deriving DecidableEq

/-- Python `a or b` on optional strings (`None` and `""` are falsy). -/
def pyOrS (a b : Option Str) : Option Str :=
  match a with
  | some s => if s = [] then b else some s
  | none => b

/-- The normalized value `(lat, lon, provider)` stored by
`augment_geocodes.load_geocode_cache`. -/
abbrev Geo3 := Option ℚ × Option ℚ × Option Str

/-- `augment_geocodes.load_geocode_cache`: for each record, in order, map
the exact composite key to `(lat, lon, provider)` (assignment, overwriting)
and the whitespace-relaxed key via `setdefault`. -/
def load_geocode_cache (data : List (Str × CacheEntry)) : List (Str × Geo3) :=
  data.foldl (fun norm kv =>
    let year := stripWs (kv.2.year.getD [])
    let city := stripWs (kv.2.city.getD [])
    let country := stripWs (kv.2.country.getD [])
    let provider := pyOrS kv.2.provider (pyOrS kv.2.geocode_provider kv.2.geocode_provider)
    let exact := mkKey year city country
    let relaxed := mkKey year (city.filter (fun c => c != ' ')) (country.filter (fun c => c != ' '))
    dSetdefault (dSet norm exact (kv.2.lat, kv.2.lon, provider)) relaxed (kv.2.lat, kv.2.lon, provider))
    []

/-- `augment_geocodes.build_row_key`: `(exact, relaxed)` keys of a CSV row. -/
def build_row_key (year city country : Str) : Str × Str :=
  (mkKey (stripWs year) (stripWs city) (stripWs country),
   mkKey (stripWs year) ((stripWs city).filter (fun c => c != ' '))
     ((stripWs country).filter (fun c => c != ' ')))

/-- `cache.get(key_exact) or cache.get(key_relaxed)` — the stored tuples are
always truthy, so Python's `or` is exactly `Option.orElse`. -/
def aug_lookup (norm : List (Str × Geo3)) (year city country : Str) : Option Geo3 :=
  (dGet norm (build_row_key year city country).1).orElse
    (fun _ => dGet norm (build_row_key year city country).2)

/-- The per-row match of `augment_geocodes.augment`: the row is augmented
with `(lat, lon, provider)` iff the looked-up tuple exists and both
coordinates are non-null; otherwise the three output fields stay empty. -/
def aug_row (norm : List (Str × Geo3)) (year city country : Str) : Option (ℚ × ℚ × Option Str) :=
  match aug_lookup norm year city country with
  | some (some la, some lo, p) => some (la, lo, p)
  | _ => none

/-- `str(x).strip().lower()` as used by `find_cache_entry`. -/
def ciNorm (s : Str) : Str := (stripWs s).map Char.toLower

/-- `build_geocoded_db.find_cache_entry`: exact composite key, else first
case-insensitive year+city match, else first city-only match. -/
def find_cache_entry (cache : List (Str × CacheEntry)) (year city country : Str) :
    Option (Str × CacheEntry) :=
  let key := mkKey year city country
  match dGet cache key with
  | some v => some (key, v)
  | none =>
    match cache.find? (fun kv =>
        ciNorm (kv.2.year.getD []) == ciNorm year && ciNorm (kv.2.city.getD []) == ciNorm city) with
    | some kv => some kv
    | none => cache.find? (fun kv => ciNorm (kv.2.city.getD []) == ciNorm city)

/-!
## `build_geocoded_db.upsert` and `json_geocoded_to_sqlite.insert_rows` (C1)
-/

/-- The record handed to `build_geocoded_db.upsert` (`rec.get(...)`:
missing/None → `none`). -/
structure GeoRec where
  year : Option Str
  city : Option Str
  country : Option Str
  season : Option Str
  notes : Option Str
  source_table : Option Str
  raw_source : Option Str
  lat : Option ℚ
  lon : Option ℚ
  geocode_status : Option Str
  geocode_provider : Option Str
  geocode_ts : Option Str
  address : Option Str
  cache_key : Option Str
  raw_cache_json : Option CacheEntry
deriving DecidableEq

/-- A row of the `geocoded_hosts` SQLite table. -/
structure DbRow where
  year : Option Str
  city : Option Str
  country : Option Str
  season : Option Str
  notes : Option Str
  source_table : Option Str
  raw_source : Option Str
  lat : Option ℚ
  lon : Option ℚ
  geocode_status : Option Str
  geocode_provider : Option Str
  geocode_ts : Option Str
  address : Option Str
  cache_key : Option Str
  raw_cache_json : Option CacheEntry
  updated_at : Option Str
deriving DecidableEq

/-- The plain-INSERT branch of `upsert`. -/
def rowOfRec (rec : GeoRec) (now : Str) : DbRow :=
  { year := rec.year, city := rec.city, country := rec.country, season := rec.season,
    notes := rec.notes, source_table := rec.source_table, raw_source := rec.raw_source,
    lat := rec.lat, lon := rec.lon, geocode_status := rec.geocode_status,
    geocode_provider := rec.geocode_provider, geocode_ts := rec.geocode_ts,
    address := rec.address, cache_key := rec.cache_key, raw_cache_json := rec.raw_cache_json,
    updated_at := some now }

/-- The `ON CONFLICT(year, city, country) DO UPDATE SET` clause of
`build_geocoded_db.upsert`: `season/notes/source_table/raw_source` are
overwritten unconditionally; `lat/lon/geocode_status/geocode_provider/
geocode_ts/address/cache_key/raw_cache_json` use
`COALESCE(excluded.x, geocoded_hosts.x)`; the key columns keep their
(equal) old values. -/
def upsertMerge (old : DbRow) (rec : GeoRec) (now : Str) : DbRow :=
  { year := old.year, city := old.city, country := old.country,
    season := rec.season, notes := rec.notes, source_table := rec.source_table,
    raw_source := rec.raw_source,
    lat := rec.lat.orElse (fun _ => old.lat),
    lon := rec.lon.orElse (fun _ => old.lon),
    geocode_status := rec.geocode_status.orElse (fun _ => old.geocode_status),
    geocode_provider := rec.geocode_provider.orElse (fun _ => old.geocode_provider),
    geocode_ts := rec.geocode_ts.orElse (fun _ => old.geocode_ts),
    address := rec.address.orElse (fun _ => old.address),
    cache_key := rec.cache_key.orElse (fun _ => old.cache_key),
    raw_cache_json := rec.raw_cache_json.orElse (fun _ => old.raw_cache_json),
    updated_at := some now }

/-- The unique-index key `(year, city, country)` of a `geocoded_hosts` row. -/
def dbKey (r : DbRow) : Option Str × Option Str × Option Str := (r.year, r.city, r.country)

/-- `build_geocoded_db.upsert` against the table: insert, or merge with the
conflicting row. -/
def upsert (tbl : List DbRow) (rec : GeoRec) (now : Str) : List DbRow :=
  if (tbl.find? (fun row => dbKey row == (rec.year, rec.city, rec.country))).isSome
  then tbl.map (fun row =>
    if dbKey row == (rec.year, rec.city, rec.country) then upsertMerge row rec now else row)
  else tbl ++ [rowOfRec rec now]

/-- A row of the `olympics_geocoded` table of `json_geocoded_to_sqlite`
(primary key `(year, city, country)`; `lat`/`lon` are NOT NULL, the other
non-key columns nullable). -/
structure OgRow where
  year : Option Nat
  city : Option Str
  country : Option Str
  season : Option Str
  notes : Option Str
  lat : Option ℚ
  lon : Option ℚ
  geocode_provider : Option Str
deriving DecidableEq

/-- Primary key of an `olympics_geocoded` row. -/
def ogKey (r : OgRow) : Option Nat × Option Str × Option Str := (r.year, r.city, r.country)

/-- One `INSERT OR REPLACE` of `json_geocoded_to_sqlite.insert_rows`: a row
with a conflicting primary key is deleted and the incoming row inserted in
full (no per-column merge). -/
def insert_or_replace (tbl : List OgRow) (r : OgRow) : List OgRow :=
  if (tbl.find? (fun row => ogKey row == ogKey r)).isSome
  then tbl.map (fun row => if ogKey row == ogKey r then r else row)
  else tbl ++ [r]

/-- `json_geocoded_to_sqlite.insert_rows` over the parsed JSON records. -/
def insert_rows (tbl : List OgRow) (recs : List OgRow) : List OgRow :=
  recs.foldl insert_or_replace tbl

/-- A cleaned CSV row as read by `build_geocoded_db.main` (fields already
stripped). -/
structure CsvRowB where
  year : Str
  city : Str
  country : Str
  season : Str
  notes : Str
  source_table : Str
  raw_source : Str
deriving DecidableEq

/-- Lines 138–158 of `build_geocoded_db.main`: build the record handed to
`upsert` from the CSV row and the cache entry found (if any).
`raw_cache_json` (`json.dumps(entry)`) is modelled as the entry itself;
`address` is `entry['raw'].get('display_name')` when `raw` is a dict. -/
def build_rec (r : CsvRowB) (found : Option (Str × CacheEntry)) : GeoRec :=
  match found with
  | some (k, e) =>
    { year := some r.year, city := some r.city, country := some r.country,
      season := some r.season, notes := some r.notes,
      source_table := some r.source_table, raw_source := some r.raw_source,
      lat := e.lat, lon := e.lon, geocode_status := e.status,
      geocode_provider := e.provider, geocode_ts := pyOrS e.timestamp e.ts,
      address := e.raw.bind (fun o => dGet o "display_name".data),
      cache_key := some k, raw_cache_json := some e }
  | none =>
    { year := some r.year, city := some r.city, country := some r.country,
      season := some r.season, notes := some r.notes,
      source_table := some r.source_table, raw_source := some r.raw_source,
      lat := none, lon := none, geocode_status := none,
      geocode_provider := none, geocode_ts := none,
      address := none, cache_key := none, raw_cache_json := none }

/-!
## Concrete example values used by counterexamples and witnesses
-/

/-- The rational 40.7 (the spec example's stored latitude). -/
def exLat : ℚ := ⟨407, 10, by decide, by decide⟩

/-- The rational −74.0 (the spec example's stored longitude). -/
def exLon : ℚ := ⟨-74, 1, by decide, by decide⟩

/-- A stored `geocoded_hosts` row with `lat=40.7, lon=-74.0, status=ok`. -/
def exOldRow : DbRow :=
  { year := some "1900".data, city := some "New York".data, country := some "USA".data,
    season := some "Summer".data, notes := some [], source_table := some [],
    raw_source := some [], lat := some exLat, lon := some exLon,
    geocode_status := some "ok".data, geocode_provider := some "nominatim".data,
    geocode_ts := some "t0".data, address := some "NY".data, cache_key := none,
    raw_cache_json := none, updated_at := some "t0".data }

/-- An incoming re-geocode record that returned `not_found`
(null coordinates, non-null status). -/
def exNotFoundRec : GeoRec :=
  { year := some "1900".data, city := some "New York".data, country := some "USA".data,
    season := some "Summer".data, notes := some [], source_table := some [],
    raw_source := some [], lat := none, lon := none,
    geocode_status := some "not_found".data, geocode_provider := some "nominatim".data,
    geocode_ts := some "t1".data, address := none, cache_key := none,
    raw_cache_json := none }

/-- A stored `olympics_geocoded` row with a non-null provider. -/
def exOgOld : OgRow :=
  { year := some 1900, city := some "Paris".data, country := some "France".data,
    season := some "Summer".data, notes := some [], lat := some exLat, lon := some exLon,
    geocode_provider := some "nominatim".data }

/-- An incoming `olympics_geocoded` record for the same key with a null
provider (and the NOT NULL coordinate columns present). -/
def exOgNew : OgRow :=
  { year := some 1900, city := some "Paris".data, country := some "France".data,
    season := some "Summer".data, notes := none, lat := some exLat, lon := some exLon,
    geocode_provider := none }

/-- Cache entry under the exact key of the queried record, with null
coordinates (`status = pending`). -/
def exPending : CacheEntry :=
  { year := some "1900".data, city := some "Paris".data, country := some "France".data,
    lat := none, lon := none, provider := none, geocode_provider := none,
    status := some "pending".data, timestamp := none, ts := none, raw := none }

/-- Cache entry for another Games instance in the same city, with non-null
coordinates (`status = ok`). -/
def exOk : CacheEntry :=
  { year := some "1924".data, city := some "Paris".data, country := some "France".data,
    lat := some ⟨2443, 50, by decide, by decide⟩,
    lon := some ⟨47, 20, by decide, by decide⟩, provider := some "nominatim".data,
    geocode_provider := none, status := some "ok".data, timestamp := some "t0".data,
    ts := none, raw := none }

/-- The two-entry cache used against `find_cache_entry`. -/
def exCache : List (Str × CacheEntry) :=
  [("1900|Paris|France".data, exPending), ("1924|Paris|France".data, exOk)]

/-- Cache entry whose city carries an internal space, with non-null
coordinates: its relaxed key is `1900|Paris|France`. -/
def exSpaced : CacheEntry :=
  { year := some "1900".data, city := some "Par is".data, country := some "France".data,
    lat := some ⟨977, 20, by decide, by decide⟩,
    lon := some ⟨47, 20, by decide, by decide⟩, provider := some "nominatim".data,
    geocode_provider := none, status := some "ok".data, timestamp := some "t0".data,
    ts := none, raw := none }

/-- The raw JSON data used against `augment_geocodes`: a non-null spaced
entry first, then a null-coordinate entry whose exact key equals the
queried row's key. -/
def exAugData : List (Str × CacheEntry) :=
  [("B".data, exSpaced), ("A".data, exPending)]

/-- A pre-existing `geocoded_hosts.json` entry with `status = ok` under the
key `1900||` (empty city and country). -/
def exGEntryOk : GEntry :=
  { key := "1900||".data, year := "1900".data, city := [], country := [],
    query := [], lat := some exLat, lon := some exLon, provider := "nominatim".data,
    status := "ok".data, timestamp := "t0".data, raw := none, error := none }

/-- A geocoding state whose cache already holds `exGEntryOk`. -/
def exGeoState : GeoState :=
  { cache := [("1900||".data, exGEntryOk)], out := [], calls := [] }

/-!
## Normal forms for the text cleaner (used to prove idempotence)

`noMatchP cs` says the `\[\s*[^\]]+\s*\]` pattern has no occurrence in
`cs`: every `[` is either immediately followed by `]` or has no `]`
anywhere after it.  `wsOk cs` says every whitespace character of `cs` is a
single space not followed by further whitespace.
-/

/-- A `]` occurs in the list. -/
def hasClose : Str → Bool
  | [] => false
  | c :: rest => c = ']' || hasClose rest

/-- The characters after a `[` admit no match starting at that `[`:
either the very next character is `]` (empty content) or no `]` follows. -/
def okOpenP (cs : Str) : Bool := cs.head? == some ']' || !hasClose cs

/-- No occurrence of `\[\s*[^\]]+\s*\]`. -/
def noMatchP : Str → Bool
  | [] => true
  | c :: rest => (if c = '[' then okOpenP rest else true) && noMatchP rest

/-- Every whitespace character is a single `' '` not followed by
whitespace. -/
def wsOk : Str → Bool
  | [] => true
  | c :: rest =>
    (if isWsC c then c = ' ' && rest.head?.all (fun d => !isWsC d) else true) && wsOk rest

/-!
## Lemmas: basic characters and list fragments
-/

theorem wsC_ne_lb {c : Char} (h : isWsC c = true) : c ≠ '[' := by
  simp only [isWsC, Bool.or_eq_true, decide_eq_true_eq] at h
  rcases h with ((((h | h) | h) | h) | h) | h <;> subst h <;> decide

theorem wsC_ne_rb {c : Char} (h : isWsC c = true) : c ≠ ']' := by
  simp only [isWsC, Bool.or_eq_true, decide_eq_true_eq] at h
  rcases h with ((((h | h) | h) | h) | h) | h <;> subst h <;> decide

theorem hasClose_append {a b : Str} :
    hasClose (a ++ b) = (hasClose a || hasClose b) := by
  induction a with
  | nil => simp [hasClose]
  | cons c rest ih => simp [hasClose, ih, Bool.or_assoc]

theorem hasClose_reverse {a : Str} : hasClose a.reverse = hasClose a := by
  induction a with
  | nil => rfl
  | cons c rest ih =>
    simp [hasClose, List.reverse_cons, hasClose_append, ih, Bool.or_comm]

theorem hasClose_false_of_cons {c : Char} {rest : Str}
    (h : hasClose (c :: rest) = false) : c ≠ ']' ∧ hasClose rest = false := by
  simp only [hasClose, Bool.or_eq_false_iff, decide_eq_false_iff_not] at h
  exact h

theorem hasClose_filter {p : Char → Bool} {cs : Str}
    (h : hasClose cs = false) : hasClose (cs.filter p) = false := by
  induction cs with
  | nil => rfl
  | cons c rest ih =>
    obtain ⟨hc, hr⟩ := hasClose_false_of_cons h
    by_cases hp : p c = true
    · simp [List.filter_cons, hp, hasClose, hc, ih hr]
    · simp only [Bool.not_eq_true] at hp
      simp [List.filter_cons, hp, ih hr]

theorem hasClose_collapse {b : Bool} {cs : Str}
    (h : hasClose cs = false) : hasClose (collapseWsP b cs) = false := by
  induction cs generalizing b with
  | nil => rfl
  | cons c rest ih =>
    obtain ⟨hc, hr⟩ := hasClose_false_of_cons h
    by_cases hw : isWsC c = true
    · cases b <;> simp [collapseWsP, hw, hasClose, ih hr]
    · simp only [Bool.not_eq_true] at hw
      simp [collapseWsP, hw, hasClose, hc, ih hr]

/-!
## Lemmas: `noMatchP` and the bracket-removal scans
-/

theorem noClose_noMatchP {cs : Str} (h : hasClose cs = false) : noMatchP cs = true := by
  induction cs with
  | nil => rfl
  | cons c rest ih =>
    obtain ⟨_, hr⟩ := hasClose_false_of_cons h
    by_cases hc : c = '['
    · simp [noMatchP, hc, okOpenP, hr, ih hr]
    · simp [noMatchP, hc, ih hr]

theorem nmP_tail {c : Char} {rest : Str} (h : noMatchP (c :: rest) = true) :
    noMatchP rest = true := by
  simp only [noMatchP, Bool.and_eq_true] at h
  exact h.2

theorem nmP_cons_of {c : Char} {rest : Str} (hc : c ≠ '[')
    (h : noMatchP rest = true) : noMatchP (c :: rest) = true := by
  simp [noMatchP, hc, h]

theorem nmP_append_right {a b : Str} (h : noMatchP (a ++ b) = true) :
    noMatchP b = true := by
  induction a with
  | nil => exact h
  | cons c rest ih => exact ih (nmP_tail h)

theorem hasClose_append_left_false {a b : Str} (h : hasClose (a ++ b) = false) :
    hasClose a = false := by
  rw [hasClose_append] at h
  exact (Bool.or_eq_false_iff.mp h).1

theorem okOpenP_append_left {a b : Str} (h : okOpenP (a ++ b) = true) :
    okOpenP a = true := by
  cases a with
  | nil => simp [okOpenP, hasClose]
  | cons c rest =>
    simp only [okOpenP, List.cons_append, List.head?_cons, Bool.or_eq_true,
      beq_iff_eq, Option.some.injEq, Bool.not_eq_true'] at h ⊢
    rcases h with h | h
    · exact Or.inl h
    · refine Or.inr ?_
      have : hasClose ((c :: rest) ++ b) = false := by simpa using h
      simpa using hasClose_append_left_false this

theorem nmP_append_left {a b : Str} (h : noMatchP (a ++ b) = true) :
    noMatchP a = true := by
  induction a with
  | nil => rfl
  | cons c rest ih =>
    have h2 : noMatchP (rest ++ b) = true := nmP_tail h
    by_cases hc : c = '['
    · subst hc
      simp only [noMatchP, if_pos rfl, Bool.and_eq_true] at h ⊢
      exact ⟨okOpenP_append_left h.1, ih h2⟩
    · exact nmP_cons_of hc (ih h2)

theorem okOpenP_elim {cs : Str} (h : okOpenP cs = true) :
    (∃ r, cs = ']' :: r) ∨ hasClose cs = false := by
  simp only [okOpenP, Bool.or_eq_true, beq_iff_eq, Bool.not_eq_true'] at h
  rcases h with h | h
  · cases cs with
    | nil => simp at h
    | cons c r =>
      simp only [List.head?_cons, Option.some.injEq] at h
      exact Or.inl ⟨r, by rw [h]⟩
  · exact Or.inr h

theorem debracketP_noMatch (cs : Str) (buf : Option Str)
    (hb : ∀ acc, buf = some acc → hasClose acc = false) :
    noMatchP (debracketP buf cs) = true := by
  induction cs generalizing buf with
  | nil =>
    cases buf with
    | none => rfl
    | some acc =>
      have hacc := hb acc rfl
      refine noClose_noMatchP ?_
      simp [debracketP, hasClose, hasClose_reverse, hacc]
  | cons c rest ih =>
    cases buf with
    | none =>
      by_cases hc : c = '['
      · simp only [debracketP, hc, if_pos rfl]
        exact ih (some []) (fun acc hacc => by cases hacc; rfl)
      · simp only [debracketP, if_neg hc]
        exact nmP_cons_of hc (ih none (fun _ h => by cases h))
    | some acc =>
      by_cases hc : c = ']'
      · by_cases ha : acc = []
        · subst ha
          have hx := ih none (fun _ h => by cases h)
          simp [debracketP, hc, noMatchP, okOpenP, hx]
        · simp only [debracketP, hc, if_pos rfl, if_neg ha]
          exact ih none (fun _ h => by cases h)
      · simp only [debracketP, if_neg hc]
        refine ih (some (c :: acc)) (fun a ha => ?_)
        cases ha
        simp [hasClose, hc, hb acc rfl]

theorem debracketP_open_noClose (cs : Str) (acc : Str) (h : hasClose cs = false) :
    debracketP (some acc) cs = '[' :: acc.reverse ++ cs := by
  induction cs generalizing acc with
  | nil => simp [debracketP]
  | cons c rest ih =>
    obtain ⟨hc, hr⟩ := hasClose_false_of_cons h
    simp only [debracketP, if_neg hc]
    rw [ih (c :: acc) hr]
    simp [List.reverse_cons, List.append_assoc]

theorem noMatchP_fixpoint {cs : Str} (h : noMatchP cs = true) : debracket cs = cs := by
  unfold debracket
  induction cs with
  | nil => rfl
  | cons c rest ih =>
    have ht := nmP_tail h
    by_cases hc : c = '['
    · subst hc
      simp only [noMatchP, if_pos rfl, Bool.and_eq_true] at h
      rcases okOpenP_elim h.1 with ⟨r, hrst⟩ | hncl
      · subst hrst
        have ihr := ih ht
        have hstep : debracketP none (']' :: r) = ']' :: debracketP none r := by
          simp [debracketP]
        rw [hstep] at ihr
        have hr2 : debracketP none r = r := by injection ihr
        simp [debracketP, hr2]
      · rw [show debracketP none ('[' :: rest) = debracketP (some []) rest from by
          simp [debracketP]]
        rw [debracketP_open_noClose rest [] hncl]
        simp
    · simp only [debracketP, if_neg hc]
      rw [ih ht]

theorem nmP_filter {p : Char → Bool} (_hl : p '[' = true) (hr : p ']' = true)
    {cs : Str} (h : noMatchP cs = true) : noMatchP (cs.filter p) = true := by
  induction cs with
  | nil => rfl
  | cons c rest ih =>
    have ht := nmP_tail h
    by_cases hp : p c = true
    · rw [List.filter_cons_of_pos hp]
      by_cases hc : c = '['
      · subst hc
        simp only [noMatchP, if_pos rfl, Bool.and_eq_true] at h ⊢
        refine ⟨?_, ih ht⟩
        rcases okOpenP_elim h.1 with ⟨r, hrst⟩ | hncl
        · subst hrst
          rw [List.filter_cons_of_pos hr]
          simp [okOpenP]
        · simp [okOpenP, hasClose_filter hncl]
      · exact nmP_cons_of hc (ih ht)
    · rw [List.filter_cons_of_neg (by simpa using hp)]
      exact ih ht

theorem nmP_collapse {cs : Str} {b : Bool} (h : noMatchP cs = true) :
    noMatchP (collapseWsP b cs) = true := by
  induction cs generalizing b with
  | nil => rfl
  | cons c rest ih =>
    have ht := nmP_tail h
    by_cases hw : isWsC c = true
    · cases b with
      | true => simpa [collapseWsP, hw] using ih (b := true) ht
      | false =>
        have hrw : collapseWsP false (c :: rest) = ' ' :: collapseWsP true rest := by
          simp [collapseWsP, hw]
        rw [hrw]
        exact nmP_cons_of (by decide) (ih (b := true) ht)
    · have hrw : collapseWsP b (c :: rest) = c :: collapseWsP false rest := by
        simp [collapseWsP, hw]
      rw [hrw]
      by_cases hc : c = '['
      · subst hc
        simp only [noMatchP, if_pos rfl, Bool.and_eq_true] at h ⊢
        refine ⟨?_, ih ht⟩
        rcases okOpenP_elim h.1 with ⟨r, hrst⟩ | hncl
        · subst hrst
          simp [collapseWsP, okOpenP, show isWsC ']' = false from by decide]
        · simp [okOpenP, hasClose_collapse hncl]
      · exact nmP_cons_of hc (ih ht)

/-!
## Lemmas: whitespace normal form and the strips
-/

theorem wsOk_tail {c : Char} {rest : Str} (h : wsOk (c :: rest) = true) :
    wsOk rest = true := by
  simp only [wsOk, Bool.and_eq_true] at h
  exact h.2

theorem wsOk_cons_nonws {c : Char} {rest : Str} (hc : isWsC c = false)
    (h : wsOk rest = true) : wsOk (c :: rest) = true := by
  simp [wsOk, hc, h]

theorem wsOk_head_space {c : Char} {rest : Str} (h : wsOk (c :: rest) = true)
    (hw : isWsC c = true) : c = ' ' ∧ rest.head?.all (fun d => !isWsC d) = true := by
  simp only [wsOk, hw, if_true, Bool.and_eq_true, decide_eq_true_eq] at h
  exact ⟨h.1.1, h.1.2⟩

theorem wsOk_append_right {a b : Str} (h : wsOk (a ++ b) = true) : wsOk b = true := by
  induction a with
  | nil => exact h
  | cons c rest ih => exact ih (wsOk_tail h)

theorem wsOk_append_left {a b : Str} (h : wsOk (a ++ b) = true) : wsOk a = true := by
  induction a with
  | nil => rfl
  | cons c rest ih =>
    have ht := ih (wsOk_tail h)
    by_cases hw : isWsC c = true
    · obtain ⟨hsp, hh⟩ := wsOk_head_space h hw
      have hh' : rest.head?.all (fun d => !isWsC d) = true := by
        cases rest with
        | nil => rfl
        | cons d r => simpa using hh
      simp [wsOk, hw, hsp, hh', ht]
    · simp only [Bool.not_eq_true] at hw
      exact wsOk_cons_nonws hw ht

theorem collapseWsP_true_head (cs : Str) :
    (collapseWsP true cs).head?.all (fun d => !isWsC d) = true := by
  induction cs with
  | nil => rfl
  | cons c rest ih =>
    by_cases hw : isWsC c = true
    · simpa [collapseWsP, hw] using ih
    · simp [collapseWsP, hw]

theorem wsOk_collapseWsP (cs : Str) (b : Bool) : wsOk (collapseWsP b cs) = true := by
  induction cs generalizing b with
  | nil => rfl
  | cons c rest ih =>
    by_cases hw : isWsC c = true
    · cases b with
      | true => simpa [collapseWsP, hw] using ih true
      | false =>
        have hrw : collapseWsP false (c :: rest) = ' ' :: collapseWsP true rest := by
          simp [collapseWsP, hw]
        rw [hrw]
        simp [wsOk, show isWsC ' ' = true from by decide, collapseWsP_true_head rest, ih true]
    · have hrw : collapseWsP b (c :: rest) = c :: collapseWsP false rest := by
        simp [collapseWsP, hw]
      rw [hrw]
      exact wsOk_cons_nonws (by simpa using hw) (ih false)

theorem collapseWsP_fix {cs : Str} {b : Bool} (h : wsOk cs = true)
    (hb : b = true → cs.head?.all (fun d => !isWsC d) = true) :
    collapseWsP b cs = cs := by
  induction cs generalizing b with
  | nil => rfl
  | cons c rest ih =>
    have ht := wsOk_tail h
    by_cases hw : isWsC c = true
    · cases b with
      | true =>
        have := hb rfl
        simp only [List.head?_cons, Option.all_some, Bool.not_eq_true'] at this
        rw [hw] at this
        cases this
      | false =>
        obtain ⟨hsp, hh⟩ := wsOk_head_space h hw
        have hrw : collapseWsP false (c :: rest) = ' ' :: collapseWsP true rest := by
          simp [collapseWsP, hw]
        rw [hrw, hsp]
        rw [ih ht (fun _ => hh)]
    · have hrw : collapseWsP b (c :: rest) = c :: collapseWsP false rest := by
        simp [collapseWsP, hw]
      rw [hrw, ih ht (fun hf => by cases hf)]

theorem mem_collapseWsP {c : Char} {cs : Str} {b : Bool}
    (h : c ∈ collapseWsP b cs) : c = ' ' ∨ c ∈ cs := by
  induction cs generalizing b with
  | nil => cases h
  | cons d rest ih =>
    by_cases hw : isWsC d = true
    · cases b with
      | true =>
        rw [show collapseWsP true (d :: rest) = collapseWsP true rest from by
          simp [collapseWsP, hw]] at h
        rcases ih h with h1 | h1
        · exact Or.inl h1
        · exact Or.inr (List.mem_cons_of_mem d h1)
      | false =>
        rw [show collapseWsP false (d :: rest) = ' ' :: collapseWsP true rest from by
          simp [collapseWsP, hw]] at h
        rcases List.mem_cons.mp h with h1 | h1
        · exact Or.inl h1
        · rcases ih h1 with h2 | h2
          · exact Or.inl h2
          · exact Or.inr (List.mem_cons_of_mem d h2)
    · rw [show collapseWsP b (d :: rest) = d :: collapseWsP false rest from by
        simp [collapseWsP, hw]] at h
      rcases List.mem_cons.mp h with h1 | h1
      · exact Or.inr (by simp [h1])
      · rcases ih h1 with h2 | h2
        · exact Or.inl h2
        · exact Or.inr (List.mem_cons_of_mem d h2)

theorem wsOk_mem_space {cs : Str} {c : Char} (h : wsOk cs = true) (hm : c ∈ cs)
    (hw : isWsC c = true) : c = ' ' := by
  induction cs with
  | nil => cases hm
  | cons d rest ih =>
    rcases List.mem_cons.mp hm with h1 | h1
    · subst h1
      exact (wsOk_head_space h hw).1
    · exact ih (wsOk_tail h) h1

theorem stripRight_append (p : Char → Bool) (s : Str) :
    s = stripRight p s ++ (s.reverse.takeWhile p).reverse := by
  conv_lhs => rw [← List.reverse_reverse s,
    ← List.takeWhile_append_dropWhile (p := p) (l := s.reverse)]
  rw [List.reverse_append]
  rfl

theorem stripLeft_append (p : Char → Bool) (s : Str) :
    s = s.takeWhile p ++ stripLeft p s := by
  rw [stripLeft, List.takeWhile_append_dropWhile]

theorem hd_dropWhile (p : Char → Bool) (l : Str) :
    (l.dropWhile p).head?.all (fun c => !p c) = true := by
  induction l with
  | nil => rfl
  | cons c rest ih =>
    by_cases hp : p c = true
    · simpa [List.dropWhile_cons, hp] using ih
    · simp [List.dropWhile_cons, hp]

theorem stripLeft_head (p : Char → Bool) (s : Str) :
    (stripLeft p s).head?.all (fun c => !p c) = true := hd_dropWhile p s

theorem stripRight_getLast (p : Char → Bool) (s : Str) :
    (stripRight p s).getLast?.all (fun c => !p c) = true := by
  rw [stripRight, List.getLast?_reverse]
  exact hd_dropWhile p s.reverse

theorem stripLeft_fix {p : Char → Bool} {s : Str}
    (h : s.head?.all (fun c => !p c) = true) : stripLeft p s = s := by
  cases s with
  | nil => rfl
  | cons c rest =>
    simp only [List.head?_cons, Option.all_some, Bool.not_eq_true'] at h
    simp [stripLeft, List.dropWhile_cons, h]

theorem stripRight_fix {p : Char → Bool} {s : Str}
    (h : s.getLast?.all (fun c => !p c) = true) : stripRight p s = s := by
  have h' : s.reverse.dropWhile p = s.reverse := by
    have := stripLeft_fix (p := p) (s := s.reverse) (by rwa [List.head?_reverse])
    simpa [stripLeft] using this
  rw [stripRight, h', List.reverse_reverse]

theorem stripBoth_fix {p : Char → Bool} {s : Str}
    (h1 : s.head?.all (fun c => !p c) = true)
    (h2 : s.getLast?.all (fun c => !p c) = true) : stripBoth p s = s := by
  rw [stripBoth, stripLeft_fix h1, stripRight_fix h2]

theorem mem_stripLeft {p : Char → Bool} {s : Str} {c : Char}
    (h : c ∈ stripLeft p s) : c ∈ s := (List.dropWhile_sublist p).mem h

theorem mem_stripRight {p : Char → Bool} {s : Str} {c : Char}
    (h : c ∈ stripRight p s) : c ∈ s := by
  rw [stripRight_append p s]
  exact List.mem_append_left _ h

theorem stripRight_head {p q : Char → Bool} {s : Str}
    (h : s.head?.all q = true) : (stripRight p s).head?.all q = true := by
  cases hsr : stripRight p s with
  | nil => rfl
  | cons c rest =>
    have := stripRight_append p s
    rw [hsr] at this
    rw [this, List.cons_append, List.head?_cons] at h
    simpa using h

theorem stripLeft_getLast {p q : Char → Bool} {s : Str}
    (h : s.getLast?.all q = true) : (stripLeft p s).getLast?.all q = true := by
  cases hsr : stripLeft p s with
  | nil => rfl
  | cons c rest =>
    have hdec := stripLeft_append p s
    rw [hsr] at hdec
    rw [hdec, List.getLast?_append_of_ne_nil _ (by simp)] at h
    rw [← hsr] at h ⊢
    exact h

theorem nmP_stripLeft {p : Char → Bool} {s : Str} (h : noMatchP s = true) :
    noMatchP (stripLeft p s) = true := by
  refine nmP_append_right (a := s.takeWhile p) ?_
  rwa [← stripLeft_append]

theorem nmP_stripRight {p : Char → Bool} {s : Str} (h : noMatchP s = true) :
    noMatchP (stripRight p s) = true := by
  refine nmP_append_left (b := (s.reverse.takeWhile p).reverse) ?_
  rwa [← stripRight_append]

theorem wsOk_stripLeft {p : Char → Bool} {s : Str} (h : wsOk s = true) :
    wsOk (stripLeft p s) = true := by
  refine wsOk_append_right (a := s.takeWhile p) ?_
  rwa [← stripLeft_append]

theorem wsOk_stripRight {p : Char → Bool} {s : Str} (h : wsOk s = true) :
    wsOk (stripRight p s) = true := by
  refine wsOk_append_left (b := (s.reverse.takeWhile p).reverse) ?_
  rwa [← stripRight_append]

theorem mem_of_head? {l : Str} {c : Char} (h : l.head? = some c) : c ∈ l := by
  cases l with
  | nil => cases h
  | cons d rest =>
    simp only [List.head?_cons, Option.some.injEq] at h
    simp [← h]

theorem mem_of_getLast? {l : Str} {c : Char} (h : l.getLast? = some c) : c ∈ l := by
  have : c ∈ l.reverse := mem_of_head? (by rwa [List.head?_reverse])
  simpa using this

theorem head_not_ws_of_not_punct {s : Str} (hws : wsOk s = true)
    (h : s.head?.all (fun c => !isPunctC c) = true) :
    s.head?.all (fun c => !isWsC c) = true := by
  cases hh : s.head? with
  | none => rfl
  | some c =>
    rw [hh] at h
    simp only [Option.all_some, Bool.not_eq_true'] at h ⊢
    by_cases hw : isWsC c = true
    · have := wsOk_mem_space hws (mem_of_head? hh) hw
      subst this
      simp [isPunctC] at h
    · simpa using hw

theorem last_not_ws_of_not_punct {s : Str} (hws : wsOk s = true)
    (h : s.getLast?.all (fun c => !isPunctC c) = true) :
    s.getLast?.all (fun c => !isWsC c) = true := by
  cases hh : s.getLast? with
  | none => rfl
  | some c =>
    rw [hh] at h
    simp only [Option.all_some, Bool.not_eq_true'] at h ⊢
    by_cases hw : isWsC c = true
    · have := wsOk_mem_space hws (mem_of_getLast? hh) hw
      subst this
      simp [isPunctC] at h
    · simpa using hw

theorem clean_text_fix {s : Str}
    (h1 : noMatchP s = true) (h2 : '†' ∉ s) (h3 : wsOk s = true)
    (h4 : s.head?.all (fun c => !isPunctC c) = true)
    (h5 : s.getLast?.all (fun c => !isPunctC c) = true) :
    clean_text s = s := by
  have e1 : debracket s = s := noMatchP_fixpoint h1
  have e2 : dedagger s = s := by
    refine List.filter_eq_self.mpr (fun a ha => ?_)
    simp only [decide_eq_true_eq]
    rintro rfl
    exact h2 ha
  have e3 : collapseWs s = s := collapseWsP_fix h3 (fun hf => by cases hf)
  have e4 : stripWs s = s :=
    stripBoth_fix (head_not_ws_of_not_punct h3 h4) (last_not_ws_of_not_punct h3 h5)
  have e5 : stripBoth isPunctC s = s := stripBoth_fix h4 h5
  rw [clean_text, e1, e2, e3, e4, e5]

theorem mem_stripBoth {p : Char → Bool} {s : Str} {c : Char}
    (h : c ∈ stripBoth p s) : c ∈ s := mem_stripLeft (mem_stripRight h)

theorem nmP_stripBoth {p : Char → Bool} {s : Str} (h : noMatchP s = true) :
    noMatchP (stripBoth p s) = true := nmP_stripRight (nmP_stripLeft h)

theorem wsOk_stripBoth {p : Char → Bool} {s : Str} (h : wsOk s = true) :
    wsOk (stripBoth p s) = true := wsOk_stripRight (wsOk_stripLeft h)

theorem clean_text_noMatch (s : Str) : noMatchP (clean_text s) = true := by
  rw [clean_text]
  refine nmP_stripBoth (nmP_stripBoth (nmP_collapse (nmP_filter ?_ ?_ ?_)))
  · decide
  · decide
  · exact debracketP_noMatch s none (fun _ h => by cases h)

theorem clean_text_no_dagger (s : Str) : '†' ∉ clean_text s := by
  intro hmem
  rw [clean_text] at hmem
  have h1 := mem_stripBoth (mem_stripBoth hmem)
  rcases mem_collapseWsP h1 with h2 | h2
  · cases h2
  · rw [dedagger, List.mem_filter] at h2
    simpa using h2.2

theorem clean_text_wsOk (s : Str) : wsOk (clean_text s) = true := by
  rw [clean_text]
  exact wsOk_stripBoth (wsOk_stripBoth (wsOk_collapseWsP _ false))

theorem clean_text_head (s : Str) :
    (clean_text s).head?.all (fun c => !isPunctC c) = true := by
  rw [clean_text, stripBoth]
  exact stripRight_head (stripLeft_head isPunctC _)

theorem clean_text_last (s : Str) :
    (clean_text s).getLast?.all (fun c => !isPunctC c) = true := by
  rw [clean_text, stripBoth]
  exact stripRight_getLast isPunctC _

/-!
## Lemmas: stable sort and first-seen-wins deduplication
-/

theorem findq_eq_head_filter {α : Type} (p : α → Bool) (l : List α) :
    l.find? p = (l.filter p).head? := by
  induction l with
  | nil => rfl
  | cons x xs ih =>
    cases hp : p x with
    | true =>
      rw [List.find?_cons_of_pos _ hp, List.filter_cons_of_pos hp, List.head?_cons]
    | false =>
      rw [List.find?_cons_of_neg _ (by simp [hp]), List.filter_cons_of_neg (by simp [hp]), ih]

theorem sIns_decomp {α : Type} (lt : α → α → Bool) (x : α) (M : List α) :
    ∃ A B, M = A ++ B ∧ sIns lt x M = A ++ x :: B ∧ ∀ a ∈ A, lt a x = true := by
  induction M with
  | nil => exact ⟨[], [], rfl, rfl, by simp⟩
  | cons y ys ih =>
    by_cases hy : lt y x = true
    · obtain ⟨A, B, h1, h2, h3⟩ := ih
      refine ⟨y :: A, B, by simp [h1], ?_, ?_⟩
      · simp [sIns, hy, h2]
      · intro a ha
        rcases List.mem_cons.mp ha with rfl | ha
        · exact hy
        · exact h3 a ha
    · simp only [Bool.not_eq_true] at hy
      exact ⟨[], y :: ys, rfl, by simp [sIns, hy], by simp⟩

theorem filter_sIns_pos {α : Type} {lt : α → α → Bool} {p : α → Bool} {x : α}
    (hx : p x = true) (hlt : ∀ a, p a = true → lt a x = false) (S : List α) :
    (sIns lt x S).filter p = x :: S.filter p := by
  obtain ⟨A, B, h1, h2, h3⟩ := sIns_decomp lt x S
  have hA : A.filter p = [] := by
    rw [List.filter_eq_nil_iff]
    intro a ha
    intro hpa
    have := hlt a hpa
    rw [h3 a ha] at this
    cases this
  rw [h2, h1, List.filter_append, List.filter_append, hA, List.filter_cons, hx,
    if_pos rfl, List.nil_append, List.nil_append]

theorem filter_sIns_neg {α : Type} {lt : α → α → Bool} {p : α → Bool} {x : α}
    (hx : p x = false) (S : List α) :
    (sIns lt x S).filter p = S.filter p := by
  obtain ⟨A, B, h1, h2, h3⟩ := sIns_decomp lt x S
  rw [h2, h1, List.filter_append, List.filter_append, List.filter_cons, hx,
    if_neg (by simp)]

theorem filter_sSort {α : Type} (lt : α → α → Bool) (p : α → Bool)
    (hcomp : ∀ a b, p a = true → p b = true → lt a b = false) (M : List α) :
    (sSort lt M).filter p = M.filter p := by
  induction M with
  | nil => rfl
  | cons x xs ih =>
    by_cases hx : p x = true
    · rw [sSort, filter_sIns_pos hx (fun a hpa => hcomp a x hpa hx), ih,
        List.filter_cons, hx, if_pos rfl]
    · simp only [Bool.not_eq_true] at hx
      rw [sSort, filter_sIns_neg hx, ih, List.filter_cons, hx]
      simp

theorem find_sSort {α : Type} (lt : α → α → Bool) (p : α → Bool)
    (hcomp : ∀ a b, p a = true → p b = true → lt a b = false) (M : List α) :
    (sSort lt M).find? p = M.find? p := by
  rw [findq_eq_head_filter, findq_eq_head_filter, filter_sSort lt p hcomp]

theorem sIns_perm {α : Type} (lt : α → α → Bool) (x : α) (M : List α) :
    List.Perm (sIns lt x M) (x :: M) := by
  obtain ⟨A, B, h1, h2, _⟩ := sIns_decomp lt x M
  rw [h2, h1]
  exact List.perm_middle

theorem sSort_perm {α : Type} (lt : α → α → Bool) (M : List α) :
    List.Perm (sSort lt M) M := by
  induction M with
  | nil => exact List.Perm.refl _
  | cons x xs ih =>
    exact (sIns_perm lt x (sSort lt xs)).trans (List.Perm.cons x ih)

theorem dedup_find? {α κ : Type} [BEq κ] [LawfulBEq κ] (key : α → κ) :
    ∀ (cs : List α) (seen : List κ) (k : κ), seen.contains k = false →
      (dedupFirst key cs seen).find? (fun r => key r == k)
        = cs.find? (fun r => key r == k) := by
  intro cs
  induction cs with
  | nil => intro seen k _; rfl
  | cons x xs ih =>
    intro seen k hk
    by_cases hx : seen.contains (key x) = true
    · have hne : (key x == k) = false := by
        cases heq : (key x == k)
        · rfl
        · exfalso
          have hkk : key x = k := by simpa using heq
          rw [hkk] at hx
          rw [hk] at hx
          exact absurd hx (by decide)
      rw [dedupFirst, if_pos hx, List.find?_cons, hne, ih seen k hk]
    · simp only [Bool.not_eq_true] at hx
      rw [dedupFirst, if_neg (by simpa using hx : ¬seen.contains (key x) = true)]
      by_cases heq : (key x == k) = true
      · simp [List.find?_cons, heq]
      · simp only [Bool.not_eq_true] at heq
        rw [List.find?_cons, heq, List.find?_cons, heq]
        refine ih _ k ?_
        simp only [List.contains_cons, Bool.or_eq_false_iff]
        refine ⟨?_, hk⟩
        rw [BEq.comm]
        exact heq

theorem dedup_subset {α κ : Type} [BEq κ] (key : α → κ) :
    ∀ (cs : List α) (seen : List κ) (a : α), a ∈ dedupFirst key cs seen → a ∈ cs := by
  intro cs
  induction cs with
  | nil => intro seen a h; cases h
  | cons x xs ih =>
    intro seen a h
    rw [dedupFirst] at h
    by_cases hx : seen.contains (key x) = true
    · rw [if_pos hx] at h
      exact List.mem_cons_of_mem x (ih _ a h)
    · rw [if_neg hx] at h
      rcases List.mem_cons.mp h with rfl | h2
      · simp
      · exact List.mem_cons_of_mem x (ih _ a h2)

theorem dedup_keys_nodup {α κ : Type} [BEq κ] [LawfulBEq κ] (key : α → κ) :
    ∀ (cs : List α) (seen : List κ),
      ((dedupFirst key cs seen).map key).Nodup
      ∧ ∀ a ∈ dedupFirst key cs seen, seen.contains (key a) = false := by
  intro cs
  induction cs with
  | nil => intro seen; exact ⟨List.nodup_nil, by intro a h; cases h⟩
  | cons x xs ih =>
    intro seen
    by_cases hx : seen.contains (key x) = true
    · rw [dedupFirst, if_pos hx]
      exact ih seen
    · rw [dedupFirst, if_neg hx]
      obtain ⟨hnd, hdisj⟩ := ih (key x :: seen)
      constructor
      · rw [List.map_cons, List.nodup_cons]
        refine ⟨?_, hnd⟩
        intro hmem
        obtain ⟨a, ha, hkey⟩ := List.mem_map.mp hmem
        have := hdisj a ha
        simp only [List.contains_cons, Bool.or_eq_false_iff] at this
        rw [hkey] at this
        simp at this
      · intro a ha
        rcases List.mem_cons.mp ha with rfl | ha2
        · simpa using hx
        · have := hdisj a ha2
          simp only [List.contains_cons, Bool.or_eq_false_iff] at this
          exact this.2

theorem keyLt_irrefl (x : Nat × Nat) : keyLt x x = false := by
  simp [keyLt]

theorem ltN_of_same_key {a b : RecN} (h : keyN a = keyN b) : ltN a b = false := by
  have h1 : a.year = b.year := congrArg Prod.fst h
  have h2 : a.Season = b.Season := congrArg (fun p => p.2.1) h
  have hsk : sortKeyN a = sortKeyN b := by
    rw [sortKeyN, sortKeyN, h1, h2]
  rw [ltN, hsk]
  exact keyLt_irrefl _

theorem ltH_of_same_key {a b : RecH} (h : keyH a = keyH b) : ltH a b = false := by
  have h1 : a.year = b.year := congrArg Prod.fst h
  have h2 : a.season = b.season := congrArg (fun p => p.2.1) h
  have hsk : sortKeyH a = sortKeyH b := by
    rw [sortKeyH, sortKeyH, h1, h2]
  rw [ltH, hsk]
  exact keyLt_irrefl _
theorem processRowH_inv {raw : List Str} {rec : RecH} (h : processRowH raw = some rec) :
    determine_season rec.year = some rec.season
    ∧ CANCELLED_YEARS.contains rec.year = false
    ∧ rec.year ≤ FUTURE_CUTOFF := by
  cases raw with
  | nil => cases h
  | cons y1 t1 =>
  cases t1 with
  | nil => cases h
  | cons y2 t2 =>
  cases t2 with
  | nil => cases h
  | cons y3 t3 =>
  cases t3 with
  | nil => cases h
  | cons y4 t4 =>
  cases t4 with
  | nil => cases h
  | cons y5 t5 =>
  simp only [processRowH] at h
  split at h
  · cases h
  · split at h
    · cases h
    · next year hinf =>
      split at h
      · cases h
      · next hcf =>
        split at h
        · cases h
        · next season hds =>
          injection h with h2
          subst h2
          simp only [Bool.or_eq_true, not_or, Bool.not_eq_true, decide_eq_true_eq] at hcf
          refine ⟨hds, hcf.1, ?_⟩
          show year ≤ FUTURE_CUTOFF
          omega

theorem processRowN_inv {r : RowN} {rec : RecN} (h : processRowN r = some rec) :
    rec.year ≤ FUTURE_CUTOFF
    ∧ rec.Season = (determine_season_by_year rec.year).getD r.Season
    ∧ (rec.Season == "Other".data) = false := by
  simp only [processRowN] at h
  split at h
  · cases h
  · split at h
    · cases h
    · next year hyr =>
      split at h
      · cases h
      · next hcut =>
        split at h
        · cases h
        · next hoth =>
          injection h with h2
          subst h2
          refine ⟨?_, rfl, ?_⟩
          · show year ≤ FUTURE_CUTOFF
            simpa using hcut
          · simpa using hoth

theorem mem_hosts_main {rows : List (List Str)} {rec : RecH} (h : rec ∈ hosts_main rows) :
    ∃ raw ∈ rows, processRowH raw = some rec := by
  rw [hosts_main] at h
  have h2 := (sSort_perm ltH _).mem_iff.mp h
  have h3 := dedup_subset keyH _ [] rec h2
  exact List.mem_filterMap.mp h3

theorem mem_clean_rows {rows : List RowN} {rec : RecN} (h : rec ∈ clean_rows rows) :
    ∃ r ∈ rows, processRowN r = some rec := by
  rw [clean_rows] at h
  have h2 := (sSort_perm ltN _).mem_iff.mp h
  have h3 := dedup_subset keyN _ [] rec h2
  exact List.mem_filterMap.mp h3

theorem hosts_main_keys_nodup (rows : List (List Str)) :
    ((hosts_main rows).map keyH).Nodup := by
  rw [hosts_main]
  have hperm := (sSort_perm ltH (dedupFirst keyH (rows.filterMap processRowH) [])).map keyH
  exact hperm.nodup_iff.mpr (dedup_keys_nodup keyH _ []).1

theorem clean_rows_keys_nodup (rows : List RowN) :
    ((clean_rows rows).map keyN).Nodup := by
  rw [clean_rows]
  have hperm := (sSort_perm ltN (dedupFirst keyN (rows.filterMap processRowN) [])).map keyN
  exact hperm.nodup_iff.mpr (dedup_keys_nodup keyN _ []).1

theorem determine_season_inv {y : Nat} {s : Str} (h : determine_season y = some s) :
    (s = "Winter".data ∨ s = "Summer".data) ∧ 1896 ≤ y ∧ y ≤ 2024 := by
  rw [determine_season] at h
  by_cases hw : WINTER_YEARS.contains y = true
  · rw [if_pos hw] at h
    injection h with h2
    have hy : y ∈ WINTER_YEARS := by simpa using hw
    have hb : ∀ z ∈ WINTER_YEARS, 1896 ≤ z ∧ z ≤ 2024 := by decide
    exact ⟨Or.inl h2.symm, hb y hy⟩
  · rw [if_neg hw] at h
    by_cases hs : SUMMER_YEARS.contains y = true
    · rw [if_pos hs] at h
      injection h with h2
      have hy : y ∈ SUMMER_YEARS := by simpa using hs
      have hb : ∀ z ∈ SUMMER_YEARS, 1896 ≤ z ∧ z ≤ 2024 := by decide
      exact ⟨Or.inr h2.symm, hb y hy⟩
    · rw [if_neg hs] at h
      cases h

theorem dsby_eq_determine_season (y : Nat) :
    determine_season_by_year y = determine_season y := rfl

/-!
## Lemmas: the summary-row pattern (C8)
-/

theorem wsC_not_digit {c : Char} (h : isWsC c = true) : isDigitC c = false := by
  simp only [isWsC, Bool.or_eq_true, decide_eq_true_eq] at h
  rcases h with ((((h | h) | h) | h) | h) | h <;> subst h <;> decide

theorem digitC_not_ws {c : Char} (h : isDigitC c = true) : isWsC c = false := by
  cases hw : isWsC c
  · rfl
  · rw [wsC_not_digit hw] at h
    cases h

theorem digitC_ne_rparen {c : Char} (h : isDigitC c = true) : c ≠ ')' := by
  rintro rfl
  cases h

theorem len4_decomp {l : Str} (h : l.length = 4) : ∃ a b c d, l = [a, b, c, d] := by
  cases l with
  | nil => cases h
  | cons a t1 =>
  cases t1 with
  | nil => cases h
  | cons b t2 =>
  cases t2 with
  | nil => cases h
  | cons c t3 =>
  cases t3 with
  | nil => cases h
  | cons d t4 =>
  cases t4 with
  | nil => exact ⟨a, b, c, d, rfl⟩
  | cons e t5 => simp at h

theorem run4_cons {c : Char} {rest : Str} (h : run4 rest = true) :
    run4 (c :: rest) = true := by
  cases rest with
  | nil => exact Bool.noConfusion h
  | cons c2 t2 =>
  cases t2 with
  | nil => exact Bool.noConfusion h
  | cons c3 t3 =>
  cases t3 with
  | nil => exact Bool.noConfusion h
  | cons c4 t4 =>
  show (isDigitC c && isDigitC c2 && isDigitC c3 && isDigitC c4
      || run4 (c2 :: c3 :: c4 :: t4)) = true
  rw [h, Bool.or_true]

theorem run4_of_quad {a b : Str} {d1 d2 d3 d4 : Char}
    (h1 : isDigitC d1 = true) (h2 : isDigitC d2 = true)
    (h3 : isDigitC d3 = true) (h4 : isDigitC d4 = true) :
    run4 (a ++ d1 :: d2 :: d3 :: d4 :: b) = true := by
  induction a with
  | nil =>
    rw [List.nil_append, run4]
    simp [h1, h2, h3, h4]
  | cons c rest ih => exact run4_cons ih

theorem takeWhile_all_append {p : Char → Bool} {a t : Str} {b0 : Char}
    (ha : ∀ c ∈ a, p c = true) (hb : p b0 = false) :
    (a ++ b0 :: t).takeWhile p = a := by
  induction a with
  | nil => simp [List.takeWhile_cons, hb]
  | cons c rest ih =>
    rw [List.cons_append, List.takeWhile_cons, ha c (by simp)]
    rw [ih (fun d hd => ha d (by simp [hd]))]
    simp

theorem searchAll_of_suffix {matchAt : Str → Bool} {pre : Str} {c : Char} {rest : Str}
    (h : matchAt (c :: rest) = true) :
    searchAll matchAt (pre ++ c :: rest) = true := by
  induction pre with
  | nil => rw [List.nil_append, searchAll, h]; rfl
  | cons d ds ih =>
    rw [List.cons_append, searchAll]
    cases hm : matchAt (d :: (ds ++ c :: rest))
    · simpa [hm] using ih
    · rfl

theorem contains_rparen_append (mid post : Str) :
    (mid ++ ')' :: post).contains ')' = true := by
  simp

theorem matchR1At_quad {a1 a2 a3 a4 : Char} {mid post : Str}
    (h1 : isDigitC a1 = true) (h2 : isDigitC a2 = true)
    (h3 : isDigitC a3 = true) (h4 : isDigitC a4 = true)
    (hmid : ∀ c ∈ mid, c ≠ ')') (hrun : run4 mid = true) :
    matchR1At ('(' :: a1 :: a2 :: a3 :: a4 :: (mid ++ ')' :: post)) = true := by
  rw [matchR1At]
  have hdw : (a1 :: a2 :: a3 :: a4 :: (mid ++ ')' :: post)).dropWhile isWsC
      = a1 :: a2 :: a3 :: a4 :: (mid ++ ')' :: post) := by
    rw [List.dropWhile_cons, digitC_not_ws h1]
    simp
  rw [hdw]
  have htw : (mid ++ ')' :: post).takeWhile (fun c => c != ')') = mid := by
    refine takeWhile_all_append (fun c hc => ?_) (by simp)
    simpa using hmid c hc
  simp [h1, h2, h3, h4, htw, hrun]

/-!
## The claims
-/

/-- C7 (amended): `clean_normalized_csv.clean_text` is idempotent — for
every input string, applying it twice equals applying it once.
(`clean_hosts_full.clean_text` is not; see the counterexample.) -/
theorem C7_clean_text_idempotent (s : Str) :
    clean_text (clean_text s) = clean_text s :=
  clean_text_fix (clean_text_noMatch s) (clean_text_no_dagger s) (clean_text_wsOk s)
    (clean_text_head s) (clean_text_last s)

/-- C7 counterexample: the claim "the text-cleaning function is idempotent"
fails for `clean_hosts_full.clean_text`: on `"a ,"` one application gives
`"a "` (a trailing space survives because the comma strip runs after the
whitespace strip), and a second application gives `"a"`. -/
theorem C7_counterexample :
    clean_text_full (clean_text_full "a ,".data) ≠ clean_text_full "a ,".data
    ∧ clean_text_full "a ,".data = "a ".data
    ∧ clean_text_full (clean_text_full "a ,".data) = "a".data := by
  refine ⟨by decide, by decide, by decide⟩

/-- C6: in both cleaning pipelines, the record kept for an identity key
`(year, season, city)` is exactly the first record with that key in the
stably sorted (year ascending, Summer before Winter) full candidate set;
later duplicates are discarded, not merged. -/
theorem C6_dedup_first_after_sort :
    (∀ (rows : List RowN) (k : Nat × Str × Str),
      (clean_rows rows).find? (fun r => keyN r == k)
        = (sSort ltN (rows.filterMap processRowN)).find? (fun r => keyN r == k))
    ∧ (∀ (rows : List (List Str)) (k : Nat × Str × Str),
      (hosts_main rows).find? (fun r => keyH r == k)
        = (sSort ltH (rows.filterMap processRowH)).find? (fun r => keyH r == k)) := by
  constructor
  · intro rows k
    have hcomp : ∀ a b : RecN, (keyN a == k) = true → (keyN b == k) = true →
        ltN a b = false := by
      intro a b ha hb
      exact ltN_of_same_key (by rw [eq_of_beq ha, eq_of_beq hb])
    rw [clean_rows, find_sSort ltN _ hcomp, dedup_find? keyN _ [] k rfl,
      find_sSort ltN _ hcomp]
  · intro rows k
    have hcomp : ∀ a b : RecH, (keyH a == k) = true → (keyH b == k) = true →
        ltH a b = false := by
      intro a b ha hb
      exact ltH_of_same_key (by rw [eq_of_beq ha, eq_of_beq hb])
    rw [hosts_main, find_sSort ltH _ hcomp, dedup_find? keyH _ [] k rfl,
      find_sSort ltH _ hcomp]

/-- C3 (amended): `clean_hosts_full.main` drops every row whose resolved
year is a cancelled-Games year; `clean_rows` of the normalize script does
not (see the counterexample — it keeps such rows, with a cancellation note,
whenever an upstream heuristic season exists). -/
theorem C3_cancelled_dropped (rows : List (List Str)) (rec : RecH)
    (h : rec ∈ hosts_main rows) : rec.year ∉ CANCELLED_YEARS := by
  obtain ⟨raw, _, hp⟩ := mem_hosts_main h
  have hinv := processRowH_inv hp
  simpa using hinv.2.1

/-- C3 counterexample: the claim "every row whose resolved year is one of
the three cancelled-Games years is dropped ... and never appears in the
cleaned canonical record set" is false for
`scrape_olympic_host_cities_normalize.clean_rows`: a Year=1916 row with a
heuristic season survives (with `Notes = "Cancelled due to war"`). -/
theorem C3_counterexample :
    clean_rows [⟨"1916".data, "Berlin".data, "Germany".data, "Summer".data, [], [], "r".data⟩]
      = [⟨1916, "Berlin".data, "Germany".data, "Summer".data,
          "Cancelled due to war".data, [], "r".data⟩]
    ∧ (1916 ∈ CANCELLED_YEARS) := by
  refine ⟨by decide, by decide⟩

/-- C3 witness. -/
theorem C3_cancelled_dropped_witness :
    ((⟨1896, "Summer".data, "Athens".data, "Greece".data, []⟩ : RecH)
        ∈ hosts_main [["1896".data, "Summer".data, "Athens".data, "Greece".data, []]])
    ∧ (⟨1896, "Summer".data, "Athens".data, "Greece".data, []⟩ : RecH).year ∉ CANCELLED_YEARS :=
  ⟨by decide, C3_cancelled_dropped [["1896".data, "Summer".data, "Athens".data, "Greece".data, []]]
    ⟨1896, "Summer".data, "Athens".data, "Greece".data, []⟩ (by decide)⟩

/-- C2 (amended): every record kept by `clean_hosts_full.main` has
`1896 ≤ year ≤ 2024` and season Summer or Winter, and its identity keys are
pairwise distinct; every record kept by `clean_rows` has season Summer or
Winter provided the upstream heuristic seasons are in
{Summer, Winter, Other}, and its identity keys are pairwise distinct.
(The non-empty-city part of the claim is false — see the counterexample —
and `clean_rows` can keep years outside the range.) -/
theorem C2_canonical_invariants :
    (∀ (rows : List (List Str)) (rec : RecH), rec ∈ hosts_main rows →
      1896 ≤ rec.year ∧ rec.year ≤ 2024
      ∧ (rec.season = "Summer".data ∨ rec.season = "Winter".data))
    ∧ (∀ rows : List (List Str), ((hosts_main rows).map keyH).Nodup)
    ∧ (∀ (rows : List RowN) (rec : RecN),
      (∀ r ∈ rows, r.Season = "Summer".data ∨ r.Season = "Winter".data
        ∨ r.Season = "Other".data) →
      rec ∈ clean_rows rows →
      (rec.Season = "Summer".data ∨ rec.Season = "Winter".data))
    ∧ (∀ rows : List RowN, ((clean_rows rows).map keyN).Nodup) := by
  refine ⟨?_, hosts_main_keys_nodup, ?_, clean_rows_keys_nodup⟩
  · intro rows rec h
    obtain ⟨raw, _, hp⟩ := mem_hosts_main h
    obtain ⟨hds, _, _⟩ := processRowH_inv hp
    obtain ⟨hsw, hlo, hhi⟩ := determine_season_inv hds
    exact ⟨hlo, hhi, hsw.symm.imp (fun h => h.symm) (fun h => h.symm) |>.symm.imp id id |>.elim
      (fun h => Or.inr (by rw [← h])) (fun h => Or.inl (by rw [← h]))⟩
  · intro rows rec hseasons h
    obtain ⟨r, hr, hp⟩ := mem_clean_rows h
    obtain ⟨_, hseq, hoth⟩ := processRowN_inv hp
    cases hds : determine_season_by_year rec.year with
    | some s =>
      rw [hds] at hseq
      simp only [Option.getD_some] at hseq
      obtain ⟨hsw, _, _⟩ := determine_season_inv (dsby_eq_determine_season rec.year ▸ hds)
      subst hseq
      exact hsw.elim (fun h => Or.inr h) (fun h => Or.inl h)
    | none =>
      rw [hds] at hseq
      simp only [Option.getD_none] at hseq
      rcases hseasons r hr with h1 | h1 | h1
      · exact Or.inl (hseq.trans h1)
      · exact Or.inr (hseq.trans h1)
      · exfalso
        rw [hseq, h1] at hoth
        simp at hoth

/-- C2 counterexample: the claim "city is a non-empty string" fails —
`clean_hosts_full.main` keeps a record with an empty city — and
`clean_rows` keeps a record with year 1802, outside [1896, 2024] (its
season fallback ignores the year lookup when the year is in neither
table). -/
theorem C2_counterexample :
    hosts_main [["1896".data, "Summer".data, [], "Greece".data, []]]
      = [⟨1896, "Summer".data, [], "Greece".data, []⟩]
    ∧ (⟨1896, "Summer".data, [], "Greece".data, []⟩ : RecH).city = []
    ∧ clean_rows [⟨"1802".data, "Rome".data, "Italy".data, "Summer".data, [], [], "x".data⟩]
        = [⟨1802, "Rome".data, "Italy".data, "Summer".data, [], [], "x".data⟩]
    ∧ 1802 < 1896 := by
  refine ⟨by decide, by decide, by decide, by decide⟩

/-- C2 witness. -/
theorem C2_canonical_invariants_witness :
    ((⟨1912, "Summer".data, "Stockholm".data, "Sweden".data, []⟩ : RecH)
        ∈ hosts_main [["1912".data, "Summer".data, "Stockholm".data, "Sweden".data, []]])
    ∧ (1896 ≤ (1912 : Nat) ∧ (1912 : Nat) ≤ 2024
        ∧ (("Summer".data : Str) = "Summer".data ∨ ("Summer".data : Str) = "Winter".data)) :=
  ⟨by decide,
    C2_canonical_invariants.1 [["1912".data, "Summer".data, "Stockholm".data, "Sweden".data, []]]
      ⟨1912, "Summer".data, "Stockholm".data, "Sweden".data, []⟩ (by decide)⟩

/-- C4 (amended): the fixed year→season lookup takes precedence over the
heuristic season wherever it is defined, in both pipelines, and an "Other"
season never survives; in `clean_hosts_full.main` every kept record's year
is in one of the lookup tables — but in `clean_rows` a row whose year is in
neither table survives with its heuristic season (see the counterexample). -/
theorem C4_season_lookup_priority :
    (∀ (rows : List RowN) (rec : RecN), rec ∈ clean_rows rows →
      (∀ s, determine_season_by_year rec.year = some s → rec.Season = s)
      ∧ rec.Season ≠ "Other".data)
    ∧ (∀ (rows : List (List Str)) (rec : RecH), rec ∈ hosts_main rows →
      determine_season rec.year = some rec.season) := by
  constructor
  · intro rows rec h
    obtain ⟨r, hr, hp⟩ := mem_clean_rows h
    obtain ⟨_, hseq, hoth⟩ := processRowN_inv hp
    constructor
    · intro s hs
      rw [hs] at hseq
      simpa using hseq
    · intro hcontra
      rw [hcontra] at hoth
      simp at hoth
  · intro rows rec h
    obtain ⟨raw, _, hp⟩ := mem_hosts_main h
    exact (processRowH_inv hp).1

/-- C4 counterexample: the claim "no record whose year is absent from both
lookup tables survives to the canonical set" is false for `clean_rows`: a
Year=1902 row (in neither table) with heuristic season Winter is kept. -/
theorem C4_counterexample :
    clean_rows [⟨"1902".data, "Oslo".data, "Norway".data, "Winter".data, [], [], "x".data⟩]
      = [⟨1902, "Oslo".data, "Norway".data, "Winter".data, [], [], "x".data⟩]
    ∧ WINTER_YEARS.contains 1902 = false
    ∧ SUMMER_YEARS.contains 1902 = false := by
  refine ⟨by decide, by decide, by decide⟩

/-- C4 witness. -/
theorem C4_season_lookup_priority_witness :
    ((⟨1994, "Lillehammer".data, "Norway".data, "Winter".data, [], [],
        "r".data⟩ : RecN)
      ∈ clean_rows [⟨"1994".data, "Lillehammer".data, "Norway".data, "Summer".data, [], [],
        "r".data⟩])
    ∧ determine_season_by_year 1994 = some "Winter".data
    ∧ ((⟨1994, "Lillehammer".data, "Norway".data, "Winter".data, [], [],
        "r".data⟩ : RecN).Season = "Winter".data
      ∧ (⟨1994, "Lillehammer".data, "Norway".data, "Winter".data, [], [],
        "r".data⟩ : RecN).Season ≠ "Other".data) := by
  refine ⟨by decide, by decide, ?_, ?_⟩
  · exact (C4_season_lookup_priority.1
      [⟨"1994".data, "Lillehammer".data, "Norway".data, "Summer".data, [], [], "r".data⟩]
      ⟨1994, "Lillehammer".data, "Norway".data, "Winter".data, [], [], "r".data⟩
      (by decide)).1 "Winter".data (by decide)
  · exact (C4_season_lookup_priority.1
      [⟨"1994".data, "Lillehammer".data, "Norway".data, "Summer".data, [], [], "r".data⟩]
      ⟨1994, "Lillehammer".data, "Norway".data, "Winter".data, [], [], "r".data⟩
      (by decide)).2

/-- C8 (amended): in the normalize pipeline, every row whose `Year` is
non-numeric or empty and whose raw text contains a leading integer followed
by a parenthesized list of two or more 4-digit years is classified as a
summary row and contributes nothing to the canonical set.
(`clean_hosts_full.is_summary_row` additionally requires a Summer/Winter
season and tests the notes field — see the counterexample.) -/
theorem C8_summary_dropped (r : RowN) (dstr wsl y1 s1 y2 r2 post : Str)
    (hyear : isDigitStr r.Year = false)
    (hraw : r.Raw = dstr ++ wsl ++ '(' :: (y1 ++ s1 ++ y2 ++ r2) ++ ')' :: post)
    (_hd : dstr ≠ []) (_hdd : dstr.all isDigitC = true) (_hws : wsl.all isWsC = true)
    (hy1l : y1.length = 4) (hy1d : y1.all isDigitC = true)
    (hy2l : y2.length = 4) (hy2d : y2.all isDigitC = true)
    (hs1 : ')' ∉ s1) (hr2 : ')' ∉ r2) :
    is_summary_row r = true ∧ processRowN r = none := by
  obtain ⟨a1, a2, a3, a4, hy1⟩ := len4_decomp hy1l
  subst hy1
  obtain ⟨b1, b2, b3, b4, hy2⟩ := len4_decomp hy2l
  subst hy2
  simp only [List.all_cons, List.all_nil, Bool.and_eq_true, Bool.and_true] at hy1d hy2d
  have hr1 : searchR1 r.Raw = true := by
    rw [hraw]
    have hshape : dstr ++ wsl ++ '(' :: ([a1, a2, a3, a4] ++ s1 ++ [b1, b2, b3, b4] ++ r2)
          ++ ')' :: post
        = (dstr ++ wsl)
          ++ '(' :: a1 :: a2 :: a3 :: a4 :: ((s1 ++ [b1, b2, b3, b4] ++ r2) ++ ')' :: post) := by
      simp [List.append_assoc]
    rw [hshape]
    refine searchAll_of_suffix ?_
    refine matchR1At_quad hy1d.1 hy1d.2.1 hy1d.2.2.1 hy1d.2.2.2 ?_ ?_
    · intro c hc
      rcases List.mem_append.mp hc with hc1 | hc1
      · rcases List.mem_append.mp hc1 with hc2 | hc2
        · exact fun hcp => hs1 (hcp ▸ hc2)
        · simp only [List.mem_cons, List.not_mem_nil, or_false] at hc2
          rcases hc2 with rfl | rfl | rfl | rfl
          · exact digitC_ne_rparen hy2d.1
          · exact digitC_ne_rparen hy2d.2.1
          · exact digitC_ne_rparen hy2d.2.2.1
          · exact digitC_ne_rparen hy2d.2.2.2
      · exact fun hcp => hr2 (hcp ▸ hc1)
    · have : s1 ++ [b1, b2, b3, b4] ++ r2 = s1 ++ b1 :: b2 :: b3 :: b4 :: r2 := by
        simp
      rw [this]
      exact run4_of_quad hy2d.1 hy2d.2.1 hy2d.2.2.1 hy2d.2.2.2
  have hsum : is_summary_row r = true := by
    rw [is_summary_row, hyear]
    simp [hr1]
  refine ⟨hsum, ?_⟩
  rw [processRowN, if_pos hsum]

/-- C8 counterexample: the claim fails for `clean_hosts_full`: a raw row
with non-numeric Year whose notes are the aggregate text
`"2 (1896, 1906, 2004)"` (which matches `MULTI_YEAR_SUMMARY`) is *not*
classified as a summary row when its season field is "Other", and — its
year being recoverable from the `S008...` games code — it survives into the
canonical set. -/
theorem C8_counterexample :
    hosts_main [["X".data, "Other".data, "Athens".data, "S008VIII".data,
        "2 (1896, 1906, 2004)".data]]
      = [⟨1924, "Winter".data, "Athens".data, "S008VIII".data,
          "2 (1896, 1906, 2004)".data⟩]
    ∧ searchMY "2 (1896, 1906, 2004)".data = true
    ∧ isDigitStr "X".data = false
    ∧ is_summary_row_full "X".data "Other".data "Athens".data
        "2 (1896, 1906, 2004)".data = false := by
  refine ⟨by decide, by decide, by decide, by decide⟩

/-- C8 witness. -/
theorem C8_summary_dropped_witness :
    (isDigitStr ("x".data : Str) = false
      ∧ ("2 (1896, 1906, 2004)".data : Str)
          = "2".data ++ " ".data ++ '(' :: ("1896".data ++ ", ".data ++ "1906".data
            ++ ", 2004".data) ++ ')' :: [])
    ∧ is_summary_row ⟨"x".data, [], [], "Other".data, [], [],
        "2 (1896, 1906, 2004)".data⟩ = true
    ∧ processRowN ⟨"x".data, [], [], "Other".data, [], [],
        "2 (1896, 1906, 2004)".data⟩ = none := by
  refine ⟨⟨by decide, by decide⟩, ?_⟩
  exact C8_summary_dropped
    ⟨"x".data, [], [], "Other".data, [], [], "2 (1896, 1906, 2004)".data⟩
    "2".data " ".data "1896".data ", ".data "1906".data ", 2004".data []
    (by decide) (by decide) (by decide) (by decide) (by decide)
    (by decide) (by decide) (by decide) (by decide) (by decide) (by decide)

/-- C1 (amended): in `build_geocoded_db.upsert`, an incoming null for
`lat/lon/geocode_status/geocode_provider/geocode_ts/address` never
overwrites the stored value, and an incoming non-null status overwrites
(so the spec's re-geocode example keeps `lat`/`lon` but its status becomes
`not_found`); `json_geocoded_to_sqlite.insert_rows` instead replaces the
whole stored row (INSERT OR REPLACE), so incoming nulls do overwrite
there. -/
theorem C1_upsert_preserve_nonnull :
    (∀ (old : DbRow) (rec : GeoRec) (now : Str),
      (rec.lat = none → (upsertMerge old rec now).lat = old.lat)
      ∧ (rec.lon = none → (upsertMerge old rec now).lon = old.lon)
      ∧ (rec.geocode_status = none →
          (upsertMerge old rec now).geocode_status = old.geocode_status)
      ∧ (rec.geocode_provider = none →
          (upsertMerge old rec now).geocode_provider = old.geocode_provider)
      ∧ (rec.geocode_ts = none → (upsertMerge old rec now).geocode_ts = old.geocode_ts)
      ∧ (rec.address = none → (upsertMerge old rec now).address = old.address)
      ∧ (∀ v, rec.geocode_status = some v →
          (upsertMerge old rec now).geocode_status = some v))
    ∧ (∀ (tbl : List OgRow) (r : OgRow),
      r ∈ insert_or_replace tbl r
      ∧ ∀ row ∈ insert_or_replace tbl r, ogKey row = ogKey r → row = r) := by
  constructor
  · intro old rec now
    refine ⟨?_, ?_, ?_, ?_, ?_, ?_, ?_⟩ <;>
      first
        | (intro h; simp [upsertMerge, h])
        | (intro v h; simp [upsertMerge, h])
  · intro tbl r
    rw [insert_or_replace]
    by_cases hf : (tbl.find? (fun row => ogKey row == ogKey r)).isSome = true
    · rw [if_pos hf]
      obtain ⟨row0, hrow0⟩ := Option.isSome_iff_exists.mp hf
      have hmem0 := List.mem_of_find?_eq_some hrow0
      have hkey0 : (ogKey row0 == ogKey r) = true := by
        have h := List.find?_some hrow0
        exact h
      constructor
      · refine List.mem_map.mpr ⟨row0, hmem0, ?_⟩
        rw [if_pos hkey0]
      · intro row hrow _
        obtain ⟨row1, _, hrow1⟩ := List.mem_map.mp hrow
        by_cases hk1 : (ogKey row1 == ogKey r) = true
        · rw [if_pos hk1] at hrow1
          exact hrow1.symm
        · rw [if_neg hk1] at hrow1
          subst hrow1
          next hkr => exact absurd (by simp [hkr]) hk1
    · rw [if_neg hf]
      constructor
      · simp
      · intro row hrow hkr
        rcases List.mem_append.mp hrow with hin | hin
        · exfalso
          rw [Option.not_isSome_iff_eq_none] at hf
          have := List.find?_eq_none.mp hf row hin
          exact this (by simp [hkr])
        · simpa using hin

/-- C1 counterexample: merging the spec's re-geocode (`not_found`, null
coordinates) into the stored row via `upsert` keeps `lat=40.7, lon=-74.0`
but sets `geocode_status` to `not_found`, not `ok` (the incoming status is
non-null, and every non-null incoming value overwrites); and
`insert_rows`'s INSERT OR REPLACE lets an incoming null provider erase a
stored non-null provider. -/
theorem C1_counterexample :
    (upsertMerge exOldRow exNotFoundRec "t1".data).lat = some exLat
    ∧ (upsertMerge exOldRow exNotFoundRec "t1".data).lon = some exLon
    ∧ (upsertMerge exOldRow exNotFoundRec "t1".data).geocode_status = some "not_found".data
    ∧ some "not_found".data ≠ some "ok".data
    ∧ exOgOld.geocode_provider = some "nominatim".data
    ∧ insert_rows [exOgOld] [exOgNew] = [exOgNew]
    ∧ exOgNew.geocode_provider = none := by
  refine ⟨by decide, by decide, by decide, by decide, by decide, by decide, by decide⟩

/-- C1 witness. -/
theorem C1_upsert_preserve_nonnull_witness :
    (exNotFoundRec.lat = none
      ∧ (upsertMerge exOldRow exNotFoundRec "t1".data).lat = exOldRow.lat)
    ∧ (exNotFoundRec.geocode_status = some "not_found".data
      ∧ (upsertMerge exOldRow exNotFoundRec "t1".data).geocode_status
          = some "not_found".data) :=
  ⟨⟨by decide, (C1_upsert_preserve_nonnull.1 exOldRow exNotFoundRec "t1".data).1 (by decide)⟩,
   ⟨by decide, (C1_upsert_preserve_nonnull.1 exOldRow exNotFoundRec "t1".data).2.2.2.2.2.2
      "not_found".data (by decide)⟩⟩

/-- C5 (amended): in `augment_geocodes`, the lookup tries the exact key and
then the whitespace-relaxed key, and the first *present* entry wins — a
record stored only under the relaxed key with non-null coordinates is
resolved (the spec's Paris example), while a present exact entry short-
circuits the relaxed tier whatever its coordinates; in
`build_geocoded_db.find_cache_entry` (the merge path, which has no relaxed
tier) a present exact entry is returned whatever its coordinates. -/
theorem C5_lookup_tiers :
    (∀ (norm : List (Str × Geo3)) (year city country : Str) (la lo : ℚ) (p : Option Str),
      dGet norm (build_row_key year city country).1 = none →
      dGet norm (build_row_key year city country).2 = some (some la, some lo, p) →
      aug_row norm year city country = some (la, lo, p))
    ∧ (∀ (norm : List (Str × Geo3)) (year city country : Str) (g : Geo3),
      dGet norm (build_row_key year city country).1 = some g →
      aug_lookup norm year city country = some g)
    ∧ (∀ (cache : List (Str × CacheEntry)) (year city country : Str) (v : CacheEntry),
      dGet cache (mkKey year city country) = some v →
      find_cache_entry cache year city country = some (mkKey year city country, v)) := by
  refine ⟨?_, ?_, ?_⟩
  · intro norm year city country la lo p h1 h2
    rw [aug_row, aug_lookup, h1, h2]
    rfl
  · intro norm year city country g h1
    rw [aug_lookup, h1]
    rfl
  · intro cache year city country v h1
    rw [find_cache_entry, h1]

/-- C5 counterexample: the claim "the first tier producing a non-null
coordinate pair wins, so an exact-key entry whose coordinates are null does
not prevent a later tier from supplying non-null coordinates" is false in
both paths: `find_cache_entry` returns the null-coordinate exact entry even
though a city-matching entry with non-null coordinates exists, and
`augment` leaves the row unmatched even though the cache holds a
relaxed-key entry with non-null coordinates. -/
theorem C5_counterexample :
    find_cache_entry exCache "1900".data "Paris".data "France".data
      = some ("1900|Paris|France".data, exPending)
    ∧ exPending.lat = none
    ∧ exOk.lat = some ⟨2443, 50, by decide, by decide⟩
    ∧ ciNorm (exOk.city.getD []) = ciNorm "Paris".data
    ∧ aug_row (load_geocode_cache exAugData) "1900".data "Paris".data "France".data = none
    ∧ exSpaced.lat = some ⟨977, 20, by decide, by decide⟩
    ∧ (build_row_key "1900".data "Par is".data "France".data).2
        = (build_row_key "1900".data "Paris".data "France".data).2 := by
  refine ⟨by decide, by decide, by decide, by decide, by decide, by decide, by decide⟩

/-- C5 witness: the spec's Paris example — a record stored only under the
relaxed key resolves through the relaxed tier with its non-null
coordinates; and the exact tier wins when present. -/
theorem C5_lookup_tiers_witness :
    (dGet [("1900|ParisX|France".data, ((some exLat, some exLon, some "nominatim".data) : Geo3))]
        (build_row_key "1900".data " Paris X ".data "France".data).1 = none
      ∧ dGet [("1900|ParisX|France".data, ((some exLat, some exLon, some "nominatim".data) : Geo3))]
          (build_row_key "1900".data " Paris X ".data "France".data).2
          = some (some exLat, some exLon, some "nominatim".data)
      ∧ aug_row [("1900|ParisX|France".data, ((some exLat, some exLon, some "nominatim".data) : Geo3))]
          "1900".data " Paris X ".data "France".data
          = some (exLat, exLon, some "nominatim".data))
    ∧ (dGet exCache (mkKey "1900".data "Paris".data "France".data) = some exPending
      ∧ find_cache_entry exCache "1900".data "Paris".data "France".data
          = some (mkKey "1900".data "Paris".data "France".data, exPending)) :=
  ⟨⟨by decide, by decide,
    C5_lookup_tiers.1 [("1900|ParisX|France".data, (some exLat, some exLon, some "nominatim".data))]
      "1900".data " Paris X ".data "France".data exLat exLon (some "nominatim".data)
      (by decide) (by decide)⟩,
   ⟨by decide,
    C5_lookup_tiers.2.2 exCache "1900".data "Paris".data "France".data exPending (by decide)⟩⟩

/-- C9: when the exact key misses and no case-insensitive year+city match
exists, `find_cache_entry` returns the first cache entry whose city matches
case-insensitively — its year and country are unconstrained — and the
record built from it in the merge loop takes that entry's coordinates. -/
theorem C9_city_fallback (cache : List (Str × CacheEntry)) (year city country : Str)
    (kv : Str × CacheEntry)
    (h1 : dGet cache (mkKey year city country) = none)
    (h2 : cache.find? (fun kv => ciNorm (kv.2.year.getD []) == ciNorm year
        && ciNorm (kv.2.city.getD []) == ciNorm city) = none)
    (h3 : cache.find? (fun kv => ciNorm (kv.2.city.getD []) == ciNorm city) = some kv) :
    find_cache_entry cache year city country = some kv
    ∧ ∀ r : CsvRowB, (build_rec r (some kv)).lat = kv.2.lat
        ∧ (build_rec r (some kv)).lon = kv.2.lon := by
  constructor
  · rw [find_cache_entry, h1, h2, h3]
  · intro r
    obtain ⟨k, e⟩ := kv
    exact ⟨rfl, rfl⟩

/-- C9 witness: the queried record's year (2030) and country (`Nowhere`)
differ from the returned entry's (1924, France); the entry's non-null
coordinates enrich the record anyway. -/
theorem C9_city_fallback_witness :
    (dGet [("1924|Paris|France".data, exOk)] (mkKey "2030".data "PARIS".data "Nowhere".data) = none
      ∧ [("1924|Paris|France".data, exOk)].find? (fun kv =>
          ciNorm (kv.2.year.getD []) == ciNorm "2030".data
          && ciNorm (kv.2.city.getD []) == ciNorm "PARIS".data) = none)
    ∧ find_cache_entry [("1924|Paris|France".data, exOk)]
        "2030".data "PARIS".data "Nowhere".data = some ("1924|Paris|France".data, exOk)
    ∧ (build_rec ⟨"2030".data, "PARIS".data, "Nowhere".data, [], [], [], []⟩
        (some ("1924|Paris|France".data, exOk))).lat = exOk.lat
    ∧ exOk.lat = some ⟨2443, 50, by decide, by decide⟩ := by
  refine ⟨⟨by decide, by decide⟩, ?_, ?_, by decide⟩
  · exact (C9_city_fallback [("1924|Paris|France".data, exOk)]
      "2030".data "PARIS".data "Nowhere".data ("1924|Paris|France".data, exOk)
      (by decide) (by decide) (by decide)).1
  · exact ((C9_city_fallback [("1924|Paris|France".data, exOk)]
      "2030".data "PARIS".data "Nowhere".data ("1924|Paris|France".data, exOk)
      (by decide) (by decide) (by decide)).2
      ⟨"2030".data, "PARIS".data, "Nowhere".data, [], [], [], []⟩).1

/-- C10 (amended): for a row whose City and Country are both empty, the
geocoding pass never calls the external geocoder; when the row's key is not
already cached, it creates and caches an entry with status `no_query` and
null coordinates; processing then continues with the remaining rows.
(When the key is already cached, the existing entry is reused unchanged —
see the counterexample.) -/
theorem C10_no_query (g : Str → GeoReply) (now : Str) (st : GeoState) (r : GRow)
    (rest : List GRow) (hc : r.City = []) (hco : r.Country = []) :
    (geo_step g now st r).calls = st.calls
    ∧ (dGet st.cache (make_key r) = none →
        (geo_step g now st r).cache
          = dSet st.cache (make_key r)
              { key := make_key r, year := r.Year, city := r.City, country := r.Country,
                query := [], lat := none, lon := none, provider := "nominatim".data,
                status := "no_query".data, timestamp := now, raw := none, error := none })
    ∧ geocode_rows g now (r :: rest) st = geocode_rows g now rest (geo_step g now st r) := by
  have hq : mk_query r.City r.Country = [] := by
    rw [hc, hco, mk_query]
    simp
  cases hcache : dGet st.cache (make_key r) with
  | some e =>
    refine ⟨?_, ?_, rfl⟩
    · rw [geo_step, hcache]
    · intro hnone
      simp at hnone
  | none =>
    refine ⟨?_, ?_, rfl⟩
    · rw [geo_step, hcache]
      simp [hq]
    · intro _
      rw [geo_step, hcache]
      simp [hq]

/-- C10 counterexample: the claim "it creates and caches an entry under the
row's composite key with status `no_query`" fails for a row whose key is
already cached: the pass reuses the stored `ok` entry, the cache is
unchanged, and no `no_query` entry exists anywhere in it. -/
theorem C10_counterexample :
    (geocode_rows (fun _ => GeoReply.notFound) "t1".data
        [⟨"1900".data, [], []⟩] exGeoState).cache = exGeoState.cache
    ∧ (∀ kv ∈ (geocode_rows (fun _ => GeoReply.notFound) "t1".data
        [⟨"1900".data, [], []⟩] exGeoState).cache, kv.2.status ≠ "no_query".data)
    ∧ exGEntryOk.status = "ok".data
    ∧ make_key ⟨"1900".data, [], []⟩ = "1900||".data
    ∧ dGet exGeoState.cache "1900||".data = some exGEntryOk := by
  refine ⟨by decide, by decide, by decide, by decide, by decide⟩

/-- C10 witness: on an empty cache the pass issues no geocoder call and
caches a `no_query` entry under the row's key. -/
theorem C10_no_query_witness :
    ((⟨"1900".data, [], []⟩ : GRow).City = [] ∧ (⟨"1900".data, [], []⟩ : GRow).Country = [])
    ∧ (geo_step (fun _ => GeoReply.notFound) "t1".data ⟨[], [], []⟩
        ⟨"1900".data, [], []⟩).calls = []
    ∧ (geo_step (fun _ => GeoReply.notFound) "t1".data ⟨[], [], []⟩
        ⟨"1900".data, [], []⟩).cache
        = dSet [] "1900||".data
            { key := "1900||".data, year := "1900".data, city := [], country := [],
              query := [], lat := none, lon := none, provider := "nominatim".data,
              status := "no_query".data, timestamp := "t1".data, raw := none, error := none } :=
  ⟨⟨rfl, rfl⟩,
   (C10_no_query (fun _ => GeoReply.notFound) "t1".data ⟨[], [], []⟩
      ⟨"1900".data, [], []⟩ [] rfl rfl).1,
   (C10_no_query (fun _ => GeoReply.notFound) "t1".data ⟨[], [], []⟩
      ⟨"1900".data, [], []⟩ [] rfl rfl).2.1 rfl⟩
